import Mathlib

/-!
Verification development for the job-dispatch and rate-limiting core of the
caimel-stack repository.  The Lean definitions below are shallow embeddings of
the Python sources:

* redis-ratelimiter/main.py  — the sliding-window and fixed-window admission
  algorithms and the POST /ratelimit endpoint (times in milliseconds as Int,
  the Redis sorted set as a list of scores, fixed-window counters as Int);
* workers/asr/worker.py and workers/diarization/worker.py — the priority-queue
  scan, the two-statement claim protocol, and the terminal writes (the
  relational store as a function from job id to an optional row);
* cloudflare-sync/sync_cloudflare.py and lightweight_check.py — the DNS
  reconciliation pass over a zone modelled as a list of records, and the
  fingerprint/exit-code plumbing of the two scripts.
-/

namespace CaimelStack

/-! ## String helpers

Executable models of the Python string methods used by the sources, defined
on the character list of the string so that concrete instances reduce inside
the kernel. -/

/-- Python str.lower() (and str.toLower): lower-case every character. -/
def strLower (s : String) : String := ⟨s.data.map Char.toLower⟩

/-- Python str.strip(): drop leading and trailing whitespace. -/
def strTrim (s : String) : String :=
  ⟨((s.data.dropWhile Char.isWhitespace).reverse.dropWhile
      Char.isWhitespace).reverse⟩

/-- Python str.endswith(suf). -/
def strEndsWith (s suf : String) : Bool := suf.data.isSuffixOf s.data

/-! ## Rate limiter service (src/infrastructure/redis-ratelimiter/main.py) -/

/-- Response body produced by both rate-limit algorithms: the keys
allow/limit/remaining/reset and the optional retryAfter of the returned
dict. -/
structure RlResult where
  allow : Bool
  limit : Int
  remaining : Int
  reset : Int
  retryAfter : Option Int
deriving DecidableEq, Repr

/-- Exact integer value of Python math.ceil(d / 1000): for the positive
divisor 1000, the ceiling of d / 1000 equals floor((d + 999) / 1000), and
Int.ediv is floor division for a positive divisor. -/
def ceilDivMs (d : Int) : Int := (d + 999) / 1000

/-- Reset timestamp computed from the oldest score in the window: the result
of zrange key 0 0 withscores plus the window, with the fallback
now + windowMs used when the set is empty (main.py lines 64-67 and 89-92). -/
def resetFrom (now windowMs : Int) (l : List Int) : Int :=
  match l.min? with
  | some oldest => oldest + windowMs
  | none => now + windowMs

/-- The _sliding_window coroutine of main.py (lines 53-99).  State is the
sorted set of scores under the key ratelimit:id.  Step 1 is
zremrangebyscore key 0 (now - windowMs), which removes exactly the scores in
the closed interval [0, now - windowMs]; step 2 counts the survivors.  If the
count reaches the limit the call denies with retryAfter
max(0, ceil((reset - now)/1000)); otherwise it zadds one member with score
now, pexpires the key, and allows. -/
def slidingWindow (now windowMs limit : Int) (entries : List Int) :
    RlResult × List Int :=
  let trimmed := entries.filter fun s => decide (¬ (0 ≤ s ∧ s ≤ now - windowMs))
  let count : Int := trimmed.length
  if limit ≤ count then
    let resetMs := resetFrom now windowMs trimmed
    ({ allow := false, limit := limit, remaining := 0, reset := resetMs,
       retryAfter := some (max 0 (ceilDivMs (resetMs - now))) }, trimmed)
  else
    let added := trimmed ++ [now]
    let resetMs := resetFrom now windowMs added
    ({ allow := true, limit := limit, remaining := max 0 (limit - (count + 1)),
       reset := resetMs, retryAfter := none }, added)

/-- The sliding-window check exactly as claim C2 words it: trim scores in
[0, now - windowMs], count the survivors; on count ≥ limit deny with
remaining = 0, reset = oldest + windowMs (fallback now + windowMs) and
retryAfter = ceil((reset - now)/1000); otherwise add exactly one member with
score now and allow with remaining = max(0, limit - (count+1)) and reset
recomputed from the new oldest. -/
def slidingWindowSpec (now windowMs limit : Int) (entries : List Int) :
    RlResult × List Int :=
  let trimmed := entries.filter fun s => decide (¬ (0 ≤ s ∧ s ≤ now - windowMs))
  let count : Int := trimmed.length
  if limit ≤ count then
    let resetMs := resetFrom now windowMs trimmed
    ({ allow := false, limit := limit, remaining := 0, reset := resetMs,
       retryAfter := some (ceilDivMs (resetMs - now)) }, trimmed)
  else
    let added := trimmed ++ [now]
    let resetMs := resetFrom now windowMs added
    ({ allow := true, limit := limit, remaining := max 0 (limit - (count + 1)),
       reset := resetMs, retryAfter := none }, added)

lemma one_le_ceilDivMs {d : Int} (h : 1 ≤ d) : 1 ≤ ceilDivMs d := by
  unfold ceilDivMs
  have h1000 : (0 : Int) < 1000 := by norm_num
  rw [Int.le_ediv_iff_mul_le h1000]
  omega

lemma resetFrom_ge {now windowMs : Int} (hW : 1 ≤ windowMs) {l : List Int}
    (hmem : ∀ s ∈ l, 0 ≤ s ∧ now - windowMs < s) :
    1 ≤ resetFrom now windowMs l - now := by
  rcases hmin : l.min? with _ | m
  · simp only [resetFrom, hmin]
    omega
  · simp only [resetFrom, hmin]
    have hm : m ∈ l := List.min?_mem (fun a b => min_choice a b) hmin
    have := hmem m hm
    omega

/-- Claim C2: the implemented sliding-window check agrees, call for call and
state for state, with the behaviour the claim describes, for any positive
window and any state whose recorded scores are (as timestamps are)
nonnegative.  The only syntactic difference between the two sides is the
clamping max(0, ·) around retryAfter, which is shown to be inert because a
surviving oldest score always yields reset ≥ now + 1. -/
theorem claim_C2 (now windowMs limit : Int) (entries : List Int)
    (hW : 1 ≤ windowMs) (hpos : ∀ s ∈ entries, 0 ≤ s) :
    slidingWindow now windowMs limit entries =
      slidingWindowSpec now windowMs limit entries := by
  unfold slidingWindow slidingWindowSpec
  dsimp only
  have hmem : ∀ s ∈ entries.filter
      (fun s => decide (¬ (0 ≤ s ∧ s ≤ now - windowMs))),
      0 ≤ s ∧ now - windowMs < s := by
    intro s hs
    rcases List.mem_filter.mp hs with ⟨hsl, hdec⟩
    have hnot : ¬ (0 ≤ s ∧ s ≤ now - windowMs) := of_decide_eq_true hdec
    have h0 : 0 ≤ s := hpos s hsl
    constructor
    · exact h0
    · by_contra hle
      exact hnot ⟨h0, by omega⟩
  split
  · have h1 : 1 ≤ resetFrom now windowMs
        (entries.filter fun s => decide (¬ (0 ≤ s ∧ s ≤ now - windowMs))) - now :=
      resetFrom_ge hW hmem
    have h2 : 1 ≤ ceilDivMs (resetFrom now windowMs
        (entries.filter fun s => decide (¬ (0 ≤ s ∧ s ≤ now - windowMs))) - now) :=
      one_le_ceilDivMs h1
    have hmax : max 0 (ceilDivMs (resetFrom now windowMs
        (entries.filter fun s => decide (¬ (0 ≤ s ∧ s ≤ now - windowMs))) - now)) =
        ceilDivMs (resetFrom now windowMs
        (entries.filter fun s => decide (¬ (0 ≤ s ∧ s ≤ now - windowMs))) - now) :=
      max_eq_right (by omega)
    rw [hmax]
  · rfl

/-- Witness for claim C2 at a concrete call: now = 10000 ms, window 1000 ms,
limit 3, one live score 9500 and one stale score 2. -/
theorem claim_C2_witness :
    (1 ≤ (1000 : Int)) ∧ (∀ s ∈ ([9500, 2] : List Int), 0 ≤ s) ∧
      slidingWindow 10000 1000 3 [9500, 2] =
        slidingWindowSpec 10000 1000 3 [9500, 2] :=
  ⟨by decide, by decide, claim_C2 10000 1000 3 [9500, 2] (by decide) (by decide)⟩

/-- The fixed-window branch of the ratelimit handler (main.py lines 126-145):
INCR the bucket counter (post-increment value), PEXPIRE the bucket key, allow
iff value ≤ limit, remaining = max(0, limit - value) when allowed else 0,
reset = end of the current bucket, and on deny
retryAfter = max(0, ceil((bucketEnd - now)/1000)).  The state is the integer
counter stored under ratelimit:fw:id:bucket (0 when the key is absent). -/
def fixedWindow (now windowMs limit : Int) (counter : Int) : RlResult × Int :=
  let value := counter + 1
  let remaining := max 0 (limit - value)
  let bucketEnd := (now / windowMs + 1) * windowMs
  ({ allow := decide (value ≤ limit), limit := limit,
     remaining := if value ≤ limit then remaining else 0,
     reset := bucketEnd,
     retryAfter := if value ≤ limit then none
       else some (max 0 (ceilDivMs (bucketEnd - now))) }, value)

/-- A run of synchronous fixed-window calls against one bucket key: each call
at time t sees the counter left by the previous call. -/
def runFixed (windowMs limit : Int) : List Int → Int → List RlResult
  | [], _ => []
  | t :: ts, c =>
    let step := fixedWindow t windowMs limit c
    step.1 :: runFixed windowMs limit ts step.2

lemma fixedWindow_snd (now w l c : Int) : (fixedWindow now w l c).2 = c + 1 :=
  rfl

lemma runFixed_getElem? (w l : Int) (ts : List Int) (c : Int) (i : Nat) :
    (runFixed w l ts c)[i]? =
      (ts[i]?).map fun t => (fixedWindow t w l (c + i)).1 := by
  induction ts generalizing c i with
  | nil => simp [runFixed]
  | cons t ts ih =>
    cases i with
    | zero => simp [runFixed]
    | succ n =>
      simp only [runFixed, List.getElem?_cons_succ, fixedWindow_snd]
      rw [ih (c + 1) n]
      simp only [Nat.cast_add, Nat.cast_one]
      ring_nf

/-- Claim C3: N + k synchronous fixed-window calls that all land in bucket b
produce exactly N allows followed by k denies; every response resets at the
bucket end (b+1)·W; every denied response reports remaining = 0 and
retryAfter = ceil((reset - now)/1000); and the decision on each call is
post-increment value ≤ limit (the i-th call sees value i+1). -/
theorem claim_C3 (N k : Nat) (W b : Int) (times : List Int)
    (hW : 1 ≤ W) (hN : 1 ≤ N) (hk : 1 ≤ k) (hlen : times.length = N + k)
    (hb : ∀ t ∈ times, t / W = b) :
    ∀ i t r, times[i]? = some t →
      (runFixed W (N : Int) times 0)[i]? = some r →
      (r.allow = decide (i < N)) ∧ r.reset = (b + 1) * W ∧
      (N ≤ i → r.allow = false ∧ r.remaining = 0 ∧
        r.retryAfter = some (ceilDivMs ((b + 1) * W - t))) := by
  intro i t r hti hri
  rw [runFixed_getElem?, hti] at hri
  have ht : t ∈ times := by
    have := List.getElem?_mem hti
    exact this
  have hbt : t / W = b := hb t ht
  have hlt : t < (b + 1) * W := by
    have := @Int.lt_ediv_add_one_mul_self t W (by omega)
    rwa [hbt] at this
  have hres : r = (fixedWindow t W (N : Int) (0 + (i : Int))).1 := by
    simpa using hri.symm
  subst hres
  unfold fixedWindow
  dsimp only
  rw [zero_add, hbt]
  refine ⟨?_, rfl, ?_⟩
  · rcases Nat.lt_or_ge i N with h | h
    · have h1 : ((i : Int) + 1 ≤ (N : Int)) := by omega
      have h2 : i < N := h
      simp [h1, h2]
    · have h1 : ¬ ((i : Int) + 1 ≤ (N : Int)) := by omega
      have h2 : ¬ (i < N) := by omega
      simp [h1, h2]
  · intro hge
    have h1 : ¬ ((i : Int) + 1 ≤ (N : Int)) := by omega
    have hd : 1 ≤ (b + 1) * W - t := by omega
    have := one_le_ceilDivMs hd
    simp [h1, max_eq_right (by omega : (0:Int) ≤ ceilDivMs ((b + 1) * W - t))]

/-- Witness for claim C3: limit 2, window 1000 ms, three calls at t = 1, 2, 3
ms, all in bucket 0. -/
theorem claim_C3_witness :
    ((1 : Int) ≤ 1000 ∧ 1 ≤ 2 ∧ 1 ≤ 1 ∧ ([1, 2, 3] : List Int).length = 2 + 1 ∧
      ∀ t ∈ ([1, 2, 3] : List Int), t / 1000 = 0) ∧
    (∀ i t r, ([1, 2, 3] : List Int)[i]? = some t →
      (runFixed 1000 (2 : Int) [1, 2, 3] 0)[i]? = some r →
      (r.allow = decide (i < 2)) ∧ r.reset = (0 + 1) * 1000 ∧
      (2 ≤ i → r.allow = false ∧ r.remaining = 0 ∧
        r.retryAfter = some (ceilDivMs ((0 + 1) * 1000 - t)))) :=
  ⟨⟨by decide, by decide, by decide, by decide, by decide⟩,
    claim_C3 2 1 1000 0 [1, 2, 3] (by decide) (by decide) (by decide)
      (by decide) (by decide)⟩

/-! ## The POST /ratelimit endpoint (main.py lines 106-151) -/

/-- Parsed JSON body of a POST /ratelimit request.  A missing field is none;
malformed JSON is rejected with 400 before this point and a non-integer limit
or windowMs raises ValueError (an unhandled 500), so both are outside this
record. -/
structure RlBody where
  id : Option String
  limit : Option Int
  windowMs : Option Int
  algo : Option String

/-- The Redis state touched by the endpoint: the sorted set of scores per id
(sliding) and the integer counter per id and bucket index (fixed). -/
structure RlState where
  z : String → List Int
  ctr : String → Int → Int

/-- HTTP outcome of the handler: a 200 JSON result, an HTTPException with a
client status code, or an unhandled exception (500). -/
inductive RlReply where
  | ok (r : RlResult)
  | clientError (code : Nat)
  | serverError
deriving DecidableEq, Repr

/-- Effective algorithm string: (body.get("algo") or "sliding").lower(), so a
missing or empty algo falls back to sliding. -/
def effAlgo (body : RlBody) : String :=
  strLower (match body.algo with
   | none => "sliding"
   | some s => if s = "" then "sliding" else s)

/-- The ratelimit handler (main.py lines 106-151): defaults limit to 5 and
windowMs to 10000, rejects an empty id with 400, dispatches on the algo
string, and rejects unknown algos with 400.  A fixed-window call with
windowMs = 0 raises ZeroDivisionError (serverError).  The 2 s sliding-window
timeout (504) is timing behaviour outside this embedding. -/
def ratelimitPost (now : Int) (body : RlBody) (st : RlState) :
    RlReply × RlState :=
  let idStr := strTrim (body.id.getD "")
  let limit := body.limit.getD 5
  let windowMs := body.windowMs.getD 10000
  let algo := effAlgo body
  if idStr = "" then (.clientError 400, st)
  else if algo = "sliding" then
    let r := slidingWindow now windowMs limit (st.z idStr)
    (.ok r.1, { st with z := fun i => if i = idStr then r.2 else st.z i })
  else if algo = "fixed" then
    if windowMs = 0 then (.serverError, st)
    else
      let bucket := now / windowMs
      let r := fixedWindow now windowMs limit (st.ctr idStr bucket)
      (.ok r.1,
        { st with ctr := fun i bk =>
            if i = idStr ∧ bk = bucket then r.2 else st.ctr i bk })
  else (.clientError 400, st)

/-- Validity of the inputs exactly as claim C5 states it: non-empty id,
limit ≥ 1, windowMs ≥ 1, and algo in the set sliding/fixed. -/
def validC5 (body : RlBody) : Prop :=
  strTrim (body.id.getD "") ≠ "" ∧ 1 ≤ body.limit.getD 5 ∧
    1 ≤ body.windowMs.getD 10000 ∧
    (effAlgo body = "sliding" ∨ effAlgo body = "fixed")

instance (body : RlBody) : Decidable (validC5 body) := by
  unfold validC5
  infer_instance

/-- Request that refutes claim C5: limit = 0 is invalid under the claim, yet
the handler accepts it. -/
def c5Body : RlBody :=
  { id := some "x", limit := some 0, windowMs := some 1000, algo := some "fixed" }

/-- Empty initial Redis state. -/
def rlState0 : RlState := { z := fun _ => [], ctr := fun _ _ => 0 }

/-- Counterexample to claim C5: the request with limit = 0 (invalid per the
claim) is not answered with 400 — it gets a 200 deny — and it mutates the
store: the fixed-window counter for id x, bucket 0 is incremented. -/
theorem claim_C5_counterexample :
    ¬ validC5 c5Body ∧
    (ratelimitPost 0 c5Body rlState0).1 ≠ RlReply.clientError 400 ∧
    (ratelimitPost 0 c5Body rlState0).2.ctr "x" 0 ≠ rlState0.ctr "x" 0 := by
  decide

/-- Claim C5 as amended, as a full characterization of the handler's
validation: (i) the reply is a 400 exactly when the trimmed id is empty or
the algo is unsupported (malformed JSON is rejected with 400 before the body
exists); (ii) every such rejection leaves the store untouched; (iii) and
(iv) limit and windowMs are never validated — for every value of both, a
request with a non-empty id and a supported algo proceeds to the chosen
algorithm and is answered 200; (v) the sole exception is windowMs = 0 under
algo=fixed, which raises an unhandled ZeroDivisionError (a 500), still not a
validation error. -/
theorem claim_C5 (now : Int) (body : RlBody) (st : RlState) :
    ((ratelimitPost now body st).1 = RlReply.clientError 400 ↔
      (strTrim (body.id.getD "") = "" ∨
        (effAlgo body ≠ "sliding" ∧ effAlgo body ≠ "fixed"))) ∧
    ((strTrim (body.id.getD "") = "" ∨
        (effAlgo body ≠ "sliding" ∧ effAlgo body ≠ "fixed")) →
      ratelimitPost now body st = (RlReply.clientError 400, st)) ∧
    (strTrim (body.id.getD "") ≠ "" → effAlgo body = "sliding" →
      (ratelimitPost now body st).1 =
        RlReply.ok (slidingWindow now (body.windowMs.getD 10000)
          (body.limit.getD 5) (st.z (strTrim (body.id.getD "")))).1) ∧
    (strTrim (body.id.getD "") ≠ "" → effAlgo body = "fixed" →
      body.windowMs.getD 10000 ≠ 0 →
      (ratelimitPost now body st).1 =
        RlReply.ok (fixedWindow now (body.windowMs.getD 10000)
          (body.limit.getD 5)
          (st.ctr (strTrim (body.id.getD ""))
            (now / body.windowMs.getD 10000))).1) ∧
    (strTrim (body.id.getD "") ≠ "" → effAlgo body = "fixed" →
      body.windowMs.getD 10000 = 0 →
      ratelimitPost now body st = (RlReply.serverError, st)) := by
  unfold ratelimitPost
  dsimp only
  by_cases hid : strTrim (body.id.getD "") = ""
  · rw [if_pos hid]
    refine ⟨?_, fun _ => rfl, ?_, ?_, ?_⟩
    · constructor
      · intro _
        exact Or.inl hid
      · intro _
        rfl
    · intro h
      exact absurd hid h
    · intro h
      exact absurd hid h
    · intro h
      exact absurd hid h
  · rw [if_neg hid]
    by_cases hsl : effAlgo body = "sliding"
    · rw [if_pos hsl]
      refine ⟨?_, ?_, fun _ _ => rfl, ?_, ?_⟩
      · constructor
        · intro h
          exact RlReply.noConfusion h
        · rintro (h | ⟨h1, _⟩)
          · exact absurd h hid
          · exact absurd hsl h1
      · rintro (h | ⟨h1, _⟩)
        · exact absurd h hid
        · exact absurd hsl h1
      · intro _ hfx
        exact absurd (hsl.symm.trans hfx) (by decide)
      · intro _ hfx
        exact absurd (hsl.symm.trans hfx) (by decide)
    · rw [if_neg hsl]
      by_cases hfx : effAlgo body = "fixed"
      · rw [if_pos hfx]
        by_cases hw : body.windowMs.getD 10000 = 0
        · rw [if_pos hw]
          refine ⟨?_, ?_, ?_, ?_, fun _ _ _ => rfl⟩
          · constructor
            · intro h
              exact RlReply.noConfusion h
            · rintro (h | ⟨_, h2⟩)
              · exact absurd h hid
              · exact absurd hfx h2
          · rintro (h | ⟨_, h2⟩)
            · exact absurd h hid
            · exact absurd hfx h2
          · intro _ h
            exact absurd h hsl
          · intro _ _ hw2
            exact absurd hw hw2
        · rw [if_neg hw]
          refine ⟨?_, ?_, ?_, fun _ _ _ => rfl, ?_⟩
          · constructor
            · intro h
              exact RlReply.noConfusion h
            · rintro (h | ⟨_, h2⟩)
              · exact absurd h hid
              · exact absurd hfx h2
          · rintro (h | ⟨_, h2⟩)
            · exact absurd h hid
            · exact absurd hfx h2
          · intro _ h
            exact absurd h hsl
          · intro _ _ hw2
            exact absurd hw2 hw
      · rw [if_neg hfx]
        refine ⟨?_, fun _ => rfl, ?_, ?_, ?_⟩
        · constructor
          · intro _
            exact Or.inr ⟨hsl, hfx⟩
          · intro _
            rfl
        · intro _ h
          exact absurd h hsl
        · intro _ h
          exact absurd h hfx
        · intro _ h
          exact absurd h hfx

/-- Witness for the amended claim C5, exercising both directions: the
unsupported algo token-bucket is answered 400 with the state unchanged, and
the unvalidated limit = 0 with algo=fixed proceeds to the fixed-window
algorithm. -/
theorem claim_C5_witness :
    (((some "token-bucket" |> RlBody.mk (some "x") (some 3) (some 1000)
        |> effAlgo) ≠ "sliding" ∧
      (some "token-bucket" |> RlBody.mk (some "x") (some 3) (some 1000)
        |> effAlgo) ≠ "fixed") ∧
      ratelimitPost 0 (RlBody.mk (some "x") (some 3) (some 1000)
          (some "token-bucket")) rlState0 =
        (RlReply.clientError 400, rlState0)) ∧
    ((strTrim ((some "x" : Option String).getD "") ≠ "" ∧
        effAlgo c5Body = "fixed" ∧ c5Body.windowMs.getD 10000 ≠ 0) ∧
      (ratelimitPost 0 c5Body rlState0).1 =
        RlReply.ok (fixedWindow 0 (c5Body.windowMs.getD 10000)
          (c5Body.limit.getD 5)
          (rlState0.ctr (strTrim (c5Body.id.getD ""))
            (0 / c5Body.windowMs.getD 10000))).1) :=
  ⟨⟨⟨by decide, by decide⟩,
    (claim_C5 0 (RlBody.mk (some "x") (some 3) (some 1000)
        (some "token-bucket")) rlState0).2.1
      (Or.inr ⟨by decide, by decide⟩)⟩,
   ⟨⟨by decide, by decide, by decide⟩,
    (claim_C5 0 c5Body rlState0).2.2.2.1 (by decide) (by decide)
      (by decide)⟩⟩

/-! ## Job scheduler and worker runtime
(src/workers/asr/worker.py, src/workers/diarization/worker.py) -/

/-- A row of the Job table, restricted to the columns the workers read and
write: status, workerId, startedAt (abstracted to whether it is set),
progress, completedAt (likewise), outputData and errorMessage. -/
structure JobRow where
  status : String
  workerId : Option String
  startedAt : Bool
  progress : Int
  completedAt : Bool
  outputData : Option String
  errorMessage : Option String
deriving DecidableEq, Repr

/-- The SELECT of get_next_job (asr/worker.py lines 265-270, diarization
lines 406-412): SELECT ... FROM Job WHERE id = :job_id AND status = 'QUEUED';
true iff a row was found. -/
def claimSelect (db : String → Option JobRow) (jobId : String) : Bool :=
  match db jobId with
  | some row => decide (row.status = "QUEUED")
  | none => false

/-- The UPDATE of get_next_job (asr/worker.py lines 274-279, diarization
lines 415-421): UPDATE Job SET status='RUNNING', startedAt=NOW(),
workerId=:worker_id WHERE id = :job_id — with no status condition in the
WHERE clause. -/
def claimUpdate (db : String → Option JobRow) (jobId wid : String) :
    String → Option JobRow :=
  fun i =>
    if i = jobId then
      (db jobId).map fun row =>
        { row with
          status := "RUNNING", startedAt := true, workerId := some wid }
    else db i

/-- Modelled from the spec: the claim protocol the specification prescribes,
UPDATE Job SET status='RUNNING', startedAt=NOW(), workerId=:w
WHERE id=:id AND status='QUEUED' executed as one atomic statement; the Bool
is whether the affected row count was nonzero, and the row is written exactly
when it was found still QUEUED. -/
def claimConditional (db : String → Option JobRow) (jobId wid : String) :
    Bool × (String → Option JobRow) :=
  if claimSelect db jobId then (true, claimUpdate db jobId wid)
  else (false, db)

/-- Under the spec's atomic conditional update, a second claim on the same id
can never also report success. -/
theorem claimConditional_at_most_one (db : String → Option JobRow)
    (jobId w1 w2 : String) (h : (claimConditional db jobId w1).1 = true) :
    (claimConditional (claimConditional db jobId w1).2 jobId w2).1 = false := by
  by_cases hsel : claimSelect db jobId
  · have hsel2 : claimSelect (claimUpdate db jobId w1) jobId = false := by
      unfold claimSelect claimUpdate at *
      rcases hrow : db jobId with _ | row
      · rw [hrow] at hsel
        simp at hsel
      · simp [hrow]
    simp [claimConditional, hsel, hsel2]
  · simp [claimConditional, hsel] at h

/-- Progress of one worker through the code's two-statement claim: it has not
yet run the SELECT, the SELECT found a QUEUED row and the UPDATE is pending,
the UPDATE ran and the worker returned the job (a successful claim), or the
SELECT found nothing and the pop was discarded. -/
inductive ClaimPhase where
  | start
  | selected
  | claimed
  | discarded
deriving DecidableEq, Repr

/-- One atomic database statement of a worker running the code's claim
protocol on jobId. -/
def stepWorker (jobId wid : String) (db : String → Option JobRow) :
    ClaimPhase → (String → Option JobRow) × ClaimPhase
  | .start =>
    if claimSelect db jobId then (db, .selected) else (db, .discarded)
  | .selected => (claimUpdate db jobId wid, .claimed)
  | p => (db, p)

/-- Interleaved execution of two workers (worker-1 and worker-2) that both
popped the same jobId: each schedule entry says which worker runs its next
statement (true = worker-1). -/
def runSchedule (jobId : String) :
    List Bool → (String → Option JobRow) × ClaimPhase × ClaimPhase →
      (String → Option JobRow) × ClaimPhase × ClaimPhase
  | [], s => s
  | w :: rest, (db, p1, p2) =>
    if w then
      let r := stepWorker jobId "worker-1" db p1
      runSchedule jobId rest (r.1, r.2, p2)
    else
      let r := stepWorker jobId "worker-2" db p2
      runSchedule jobId rest (r.1, p1, r.2)

/-- A freshly enqueued row. -/
def queuedRow : JobRow :=
  { status := "QUEUED", workerId := none, startedAt := false, progress := 0,
    completedAt := false, outputData := none, errorMessage := none }

/-- Database holding the single queued job job-1. -/
def c1Db : String → Option JobRow :=
  fun i => if i = "job-1" then some queuedRow else none

/-- Claim C1 fails on the code: the claim is a SELECT followed by an
unconditional UPDATE, not one conditional statement, so under the interleaving
select-1, select-2, update-1, update-2 of two workers that both popped job-1
(duplicate delivery) both workers observe a successful QUEUED to RUNNING
claim, and the second UPDATE silently overwrites the first worker's
ownership.  Under the spec's conditional update (claimConditional) the second
worker would have seen zero affected rows. -/
theorem claim_C1 :
    (runSchedule "job-1" [true, false, true, false]
        (c1Db, ClaimPhase.start, ClaimPhase.start)).2.1 = ClaimPhase.claimed ∧
    (runSchedule "job-1" [true, false, true, false]
        (c1Db, ClaimPhase.start, ClaimPhase.start)).2.2 = ClaimPhase.claimed ∧
    (runSchedule "job-1" [true, false, true, false]
        (c1Db, ClaimPhase.start, ClaimPhase.start)).1 "job-1" =
      some { status := "RUNNING", workerId := some "worker-2",
             startedAt := true, progress := 0, completedAt := false,
             outputData := none, errorMessage := none } := by
  decide

/-- The COMPLETED terminal write of run_worker (asr/worker.py lines 312-322,
diarization lines 458-473): UPDATE Job SET status='COMPLETED', progress=100,
completedAt=NOW(), outputData=:output WHERE id = :job_id — unconditional on
status and workerId. -/
def terminalComplete (db : String → Option JobRow) (jobId output : String) :
    String → Option JobRow :=
  fun i =>
    if i = jobId then
      (db jobId).map fun row =>
        { row with
          status := "COMPLETED", progress := 100, completedAt := true,
          outputData := some output }
    else db i

/-- The FAILED terminal write of run_worker (asr/worker.py lines 330-340,
diarization lines 475-487): UPDATE Job SET status='FAILED',
errorMessage=:error, completedAt=NOW() WHERE id = :job_id — likewise
unconditional. -/
def terminalFailed (db : String → Option JobRow) (jobId err : String) :
    String → Option JobRow :=
  fun i =>
    if i = jobId then
      (db jobId).map fun row =>
        { row with
          status := "FAILED", errorMessage := some err, completedAt := true }
    else db i

/-- A row an operator has cancelled. -/
def cancelledRow : JobRow :=
  { status := "CANCELLED", workerId := none, startedAt := false, progress := 0,
    completedAt := false, outputData := none, errorMessage := none }

/-- Database holding the single cancelled job job-9. -/
def c4Db : String → Option JobRow :=
  fun i => if i = "job-9" then some cancelledRow else none

/-- Claim C4 fails on the code: both terminal writes filter on the id alone
(neither status='RUNNING' nor workerId=:w appears in the WHERE clause), so a
row already marked CANCELLED is overwritten to COMPLETED or FAILED.  The
writes do not even receive the worker's id. -/
theorem claim_C4 :
    terminalComplete c4Db "job-9" "out" "job-9" =
      some { status := "COMPLETED", workerId := none, startedAt := false,
             progress := 100, completedAt := true, outputData := some "out",
             errorMessage := none } ∧
    terminalFailed c4Db "job-9" "boom" "job-9" =
      some { status := "FAILED", workerId := none, startedAt := false,
             progress := 0, completedAt := true, outputData := none,
             errorMessage := some "boom" } := by
  decide

/-! ## Priority-queue scan (get_next_job) -/

/-- The four queue names the ASR worker scans, in order (asr/worker.py lines
252-253). -/
def asrQueues : List String :=
  ["queue:TRANSCRIPTION:URGENT", "queue:TRANSCRIPTION:HIGH",
   "queue:TRANSCRIPTION:NORMAL", "queue:TRANSCRIPTION:LOW"]

/-- Job types of the diarization worker in scan order (diarization/worker.py
line 392). -/
def diarJobTypes : List String :=
  ["DIARIZATION", "EMBEDDING_EXTRACTION", "SPEAKER_CLUSTERING"]

/-- Priorities in scan order (diarization/worker.py line 393). -/
def priorities : List String := ["URGENT", "HIGH", "NORMAL", "LOW"]

/-- The diarization worker's scan list: outer loop over job types, inner loop
over priorities (diarization/worker.py lines 395-397). -/
def diarQueues : List String :=
  diarJobTypes.flatMap fun t =>
    priorities.map fun p => "queue:" ++ t ++ ":" ++ p

/-- The timeout, in seconds, both workers pass to the blocking pop
(self.redis.brpop(queue, 1)). -/
def brpopTimeoutSeconds : Nat := 1

/-- One BRPOP on a single queue: Redis lists are pushed on the left, so BRPOP
takes the rightmost (oldest) element; none models a timeout on an empty
queue. -/
def brpopOne (q : List String) : Option (String × List String) :=
  match q.getLast? with
  | some j => some (j, q.dropLast)
  | none => none

/-- Result of one get_next_job call: the id of the job returned (none when
every queue timed out), plus the database and queue states it leaves
behind. -/
structure FetchResult where
  popped : Option String
  db : String → Option JobRow
  queues : String → List String

/-- get_next_job (asr/worker.py lines 249-288, diarization lines 389-430):
walk the scan list; on each queue attempt a blocking pop; on a popped id run
the SELECT-then-UPDATE claim; if the SELECT finds no QUEUED row, discard the
pop silently and continue with the next queue; return the first id whose
claim succeeded. -/
def getNextJob (scan : List String) (wid : String)
    (queues : String → List String) (db : String → Option JobRow) :
    FetchResult :=
  match scan with
  | [] => ⟨none, db, queues⟩
  | qname :: rest =>
    match brpopOne (queues qname) with
    | none => getNextJob rest wid queues db
    | some (jobId, q') =>
      let queues' := fun n => if n = qname then q' else queues n
      if claimSelect db jobId then
        ⟨some jobId, claimUpdate db jobId wid, queues'⟩
      else
        getNextJob rest wid queues' db

/-- Queue state of the C6 scenario: A enqueued at LOW, then B at URGENT, then
C at NORMAL. -/
def c6Queues : String → List String := fun q =>
  if q = "queue:TRANSCRIPTION:LOW" then ["A"]
  else if q = "queue:TRANSCRIPTION:URGENT" then ["B"]
  else if q = "queue:TRANSCRIPTION:NORMAL" then ["C"]
  else []

/-- Database of the C6 scenario: A, B and C are all QUEUED. -/
def c6Db : String → Option JobRow := fun i =>
  if i = "A" ∨ i = "B" ∨ i = "C" then some queuedRow else none

/-- Claim C6: the ASR worker scans exactly URGENT, HIGH, NORMAL, LOW for its
one type; the diarization worker scans the type-by-priority product ordered
outer-by-type, inner-by-priority; the blocking pop uses a 1 s timeout; and a
single transcription worker facing A at LOW, B at URGENT, C at NORMAL claims
them in the order B, C, A. -/
theorem claim_C6 :
    asrQueues =
      ["queue:TRANSCRIPTION:URGENT", "queue:TRANSCRIPTION:HIGH",
       "queue:TRANSCRIPTION:NORMAL", "queue:TRANSCRIPTION:LOW"] ∧
    diarQueues =
      ["queue:DIARIZATION:URGENT", "queue:DIARIZATION:HIGH",
       "queue:DIARIZATION:NORMAL", "queue:DIARIZATION:LOW",
       "queue:EMBEDDING_EXTRACTION:URGENT", "queue:EMBEDDING_EXTRACTION:HIGH",
       "queue:EMBEDDING_EXTRACTION:NORMAL", "queue:EMBEDDING_EXTRACTION:LOW",
       "queue:SPEAKER_CLUSTERING:URGENT", "queue:SPEAKER_CLUSTERING:HIGH",
       "queue:SPEAKER_CLUSTERING:NORMAL", "queue:SPEAKER_CLUSTERING:LOW"] ∧
    brpopTimeoutSeconds = 1 ∧
    (getNextJob asrQueues "w" c6Queues c6Db).popped = some "B" ∧
    (getNextJob asrQueues "w"
        (getNextJob asrQueues "w" c6Queues c6Db).queues
        (getNextJob asrQueues "w" c6Queues c6Db).db).popped = some "C" ∧
    (getNextJob asrQueues "w"
        (getNextJob asrQueues "w"
            (getNextJob asrQueues "w" c6Queues c6Db).queues
            (getNextJob asrQueues "w" c6Queues c6Db).db).queues
        (getNextJob asrQueues "w"
            (getNextJob asrQueues "w" c6Queues c6Db).queues
            (getNextJob asrQueues "w" c6Queues c6Db).db).db).popped =
      some "A" := by
  decide

/-! ## DNS reconciler (src/infrastructure/cloudflare-sync/sync_cloudflare.py)

The zone is a list of records, each carrying the provider-assigned record id
used by the update and delete API calls.  sync_dns_records reads one snapshot
of the zone (get_existing_records) and performs all of its lookups against
that snapshot, while creates, updates and deletes take effect on the live
zone; the embedding therefore keeps the snapshot and the live list apart.
All API calls are modelled as succeeding (claims C7 and C8 are about the
record-level behaviour of a pass, claim C9 about the failure plumbing). -/

/-- A DNS record of the provider: id, type, name, content (the IP) and the
proxied flag. -/
structure DnsRecord where
  rid : Nat
  rtype : String
  name : String
  content : String
  proxied : Bool
deriving DecidableEq, Repr

/-- Live zone plus the id the provider will give the next created record. -/
structure ZoneState where
  live : List DnsRecord
  nextId : Nat
deriving DecidableEq, Repr

/-- First A-record with the given name, as each of the lookup loops finds it
(record['type'] == 'A' and record['name'] == name, then break). -/
def findA (records : List DnsRecord) (n : String) : Option DnsRecord :=
  records.find? fun r => decide (r.rtype = "A") && decide (r.name = n)

/-- update_dns_record: a PUT on the record id overwriting type, name, content
and proxied. -/
def updateRec (st : ZoneState) (k : Nat) (n ip : String) (p : Bool) :
    ZoneState :=
  { st with
    live := st.live.map fun r =>
      if r.rid = k then
        { r with rtype := "A", name := n, content := ip, proxied := p }
      else r }

/-- create_dns_record: a POST creating a fresh A-record. -/
def createRec (st : ZoneState) (n ip : String) (p : Bool) : ZoneState :=
  { live := st.live ++
      [{ rid := st.nextId, rtype := "A", name := n, content := ip,
         proxied := p }],
    nextId := st.nextId + 1 }

/-- delete_dns_record: a DELETE on the record id. -/
def deleteRec (st : ZoneState) (k : Nat) : ZoneState :=
  { st with live := st.live.filter fun r => decide (r.rid ≠ k) }

/-- The reserved helper hostname ssh-3afb6505.<base>, lower-cased
(sync_cloudflare.py line 206). -/
def sshName (base : String) : String := strLower ("ssh-3afb6505." ++ base)

/-- Root-domain handling (lines 182-200): update the first A-record named
<base> when its content differs from the current IP (update_dns_record with
the default proxied=True), create it proxied when absent, and otherwise touch
nothing — in particular an existing root record with the current IP keeps
its proxied flag. -/
def ensureRoot (base ip : String) (snapshot : List DnsRecord)
    (st : ZoneState) : ZoneState :=
  match findA snapshot base with
  | some r => if r.content ≠ ip then updateRec st r.rid base ip true else st
  | none => createRec st base ip true

/-- Reserved-helper handling (lines 205-228): the ssh record is forced to the
current IP and proxied=False, created unproxied when absent. -/
def ensureSsh (base ip : String) (snapshot : List DnsRecord)
    (st : ZoneState) : ZoneState :=
  match findA snapshot (sshName base) with
  | some r =>
    if r.content ≠ ip ∨ r.proxied ≠ false then
      updateRec st r.rid (sshName base) ip false
    else st
  | none => createRec st (sshName base) ip false

/-- Proxy decision for a subdomain (lines 240-244): proxied unless the
lower-cased hostname ends with -d.<base>. -/
def shouldProxy (base hl : String) : Bool := !(strEndsWith hl ("-d." ++ base))

/-- Body of the per-hostname loop (lines 232-269): lower-case the hostname,
skip the ssh helper (managed above), look the name up in the snapshot; update
the found record when IP or proxy flag differ, else leave it; create the
record when absent.  Every handled name is appended to processed_records
(the second component). -/
def processHost (base ip : String) (snapshot : List DnsRecord)
    (acc : ZoneState × List String) (h : String) : ZoneState × List String :=
  let hl := strLower h
  if hl = sshName base then acc
  else
    match findA snapshot hl with
    | some r =>
      if r.content ≠ ip ∨ r.proxied ≠ shouldProxy base hl then
        (updateRec acc.1 r.rid hl ip (shouldProxy base hl), acc.2 ++ [hl])
      else (acc.1, acc.2 ++ [hl])
    | none => (createRec acc.1 hl ip (shouldProxy base hl), acc.2 ++ [hl])

/-- Condition of the pruning loop (line 274): the record is an A-record, its
name ends with .<base>, and its name is not among the processed names. -/
def orphanCond (base : String) (processed : List String) (r : DnsRecord) :
    Prop :=
  r.rtype = "A" ∧ strEndsWith r.name ("." ++ base) = true ∧
    r.name ∉ processed

instance (base : String) (processed : List String) (r : DnsRecord) :
    Decidable (orphanCond base processed r) := by
  unfold orphanCond
  infer_instance

/-- Pruning loop (lines 272-279): delete every snapshot A-record whose name
ends with .<base> and is not among the processed names. -/
def pruneZone (base : String) (snapshot : List DnsRecord)
    (processed : List String) (st : ZoneState) : ZoneState :=
  snapshot.foldl
    (fun s r => if orphanCond base processed r then deleteRec s r.rid else s)
    st

/-- sync_dns_records (lines 162-281) with every API call succeeding: handle
the root record, then the reserved ssh record, then each extracted hostname
(processed_records starts as [base, ssh]), and prune only when the extracted
hostname list is non-empty. -/
def syncDnsRecords (base ip : String) (hostnames : List String)
    (snapshot : List DnsRecord) (nid : Nat) : ZoneState :=
  let st1 := ensureRoot base ip snapshot { live := snapshot, nextId := nid }
  let st2 := ensureSsh base ip snapshot st1
  let acc := hostnames.foldl (processHost base ip snapshot)
    (st2, [base, sshName base])
  if hostnames ≠ [] then pruneZone base snapshot acc.2 acc.1 else acc.1

/-- Names the pass considers desired: the root, the reserved helper, and the
lower-cased extracted hostnames. -/
def desiredName (base : String) (hostnames : List String) (n : String) :
    Prop :=
  n = base ∨ n = sshName base ∨ n ∈ hostnames.map strLower

/-- Record id k is present in the live zone. -/
def ridLive (st : ZoneState) (k : Nat) : Prop := ∃ r ∈ st.live, r.rid = k

/-! ### Basic record-operation lemmas -/

lemma mem_updateRec_of_ne {st : ZoneState} {r : DnsRecord} {k : Nat}
    {n ip : String} {p : Bool} (hr : r ∈ st.live) (hne : r.rid ≠ k) :
    r ∈ (updateRec st k n ip p).live := by
  unfold updateRec
  have hmem := List.mem_map_of_mem
    (fun r => if r.rid = k then
      ({ r with rtype := "A", name := n, content := ip, proxied := p } :
        DnsRecord)
    else r) hr
  dsimp only at hmem
  rw [if_neg hne] at hmem
  exact hmem

lemma mem_updateRec_target {st : ZoneState} {r : DnsRecord} {k : Nat}
    {n ip : String} {p : Bool} (hr : r ∈ st.live) (hk : r.rid = k) :
    (⟨k, "A", n, ip, p⟩ : DnsRecord) ∈ (updateRec st k n ip p).live := by
  unfold updateRec
  have hmem := List.mem_map_of_mem
    (fun r => if r.rid = k then
      ({ r with rtype := "A", name := n, content := ip, proxied := p } :
        DnsRecord)
    else r) hr
  dsimp only at hmem
  rw [if_pos hk] at hmem
  have heq : ({ r with rtype := "A", name := n, content := ip, proxied := p } :
      DnsRecord) = ⟨k, "A", n, ip, p⟩ := by
    cases r
    simp_all
  rw [heq] at hmem
  exact hmem

lemma mem_createRec {st : ZoneState} {r : DnsRecord} {n ip : String}
    {p : Bool} (hr : r ∈ st.live) : r ∈ (createRec st n ip p).live := by
  unfold createRec
  exact List.mem_append_left _ hr

lemma createRec_self (st : ZoneState) (n ip : String) (p : Bool) :
    (⟨st.nextId, "A", n, ip, p⟩ : DnsRecord) ∈ (createRec st n ip p).live := by
  unfold createRec
  simp

lemma mem_deleteRec_of_ne {st : ZoneState} {r : DnsRecord} {k : Nat}
    (hr : r ∈ st.live) (hne : r.rid ≠ k) : r ∈ (deleteRec st k).live := by
  unfold deleteRec
  exact List.mem_filter.mpr ⟨hr, by simpa using hne⟩

lemma deleteRec_spec {st : ZoneState} {r : DnsRecord} {k : Nat}
    (hr : r ∈ (deleteRec st k).live) : r ∈ st.live ∧ r.rid ≠ k := by
  unfold deleteRec at hr
  have := List.mem_filter.mp hr
  exact ⟨this.1, by simpa using this.2⟩

lemma ridLive_updateRec {st : ZoneState} {k' k : Nat} {n ip : String}
    {p : Bool} (h : ridLive st k') : ridLive (updateRec st k n ip p) k' := by
  rcases h with ⟨r, hr, hk⟩
  by_cases he : r.rid = k
  · refine ⟨⟨k, "A", n, ip, p⟩, mem_updateRec_target hr he, ?_⟩
    show k = k'
    omega
  · exact ⟨r, mem_updateRec_of_ne hr he, hk⟩

lemma ridLive_createRec {st : ZoneState} {k' : Nat} {n ip : String} {p : Bool}
    (h : ridLive st k') : ridLive (createRec st n ip p) k' := by
  rcases h with ⟨r, hr, hk⟩
  exact ⟨r, mem_createRec hr, hk⟩

lemma findA_mem {l : List DnsRecord} {n : String} {r : DnsRecord}
    (h : findA l n = some r) : r ∈ l :=
  List.mem_of_find?_eq_some h

lemma findA_props {l : List DnsRecord} {n : String} {r : DnsRecord}
    (h : findA l n = some r) : r.rtype = "A" ∧ r.name = n := by
  have := List.find?_some h
  simp only [Bool.and_eq_true, decide_eq_true_eq] at this
  exact this

lemma rid_inj {snapshot : List DnsRecord}
    (hnd : (snapshot.map DnsRecord.rid).Nodup) {r0 r1 : DnsRecord}
    (h0 : r0 ∈ snapshot) (h1 : r1 ∈ snapshot) (h : r0.rid = r1.rid) :
    r0 = r1 :=
  List.inj_on_of_nodup_map hnd h0 h1 h

lemma strLower_length (s : String) : (strLower s).length = s.length := by
  unfold strLower
  show (s.data.map Char.toLower).length = s.data.length
  simp

lemma sshName_ne_base (base : String) : sshName base ≠ base := by
  intro h
  have hlen : (sshName base).length = base.length := by rw [h]
  rw [sshName, strLower_length, String.length_append] at hlen
  have : ("ssh-3afb6505." : String).length = 13 := rfl
  omega

lemma strEndsWith_length {s suf : String} (h : strEndsWith s suf = true) :
    suf.length ≤ s.length := by
  unfold strEndsWith at h
  have hsuffix : suf.data <:+ s.data := List.isSuffixOf_iff_suffix.mp h
  exact hsuffix.length_le

/-! ### Phase-level lemmas: which records each phase can touch -/

lemma mem_ensureRoot {base ip : String} {snapshot : List DnsRecord}
    {st : ZoneState} {r : DnsRecord} (hr : r ∈ st.live)
    (hne : ∀ r1 ∈ snapshot, r1.rid = r.rid → r1.name ≠ base) :
    r ∈ (ensureRoot base ip snapshot st).live := by
  rcases hf : findA snapshot base with _ | r1
  · simp only [ensureRoot, hf]
    exact mem_createRec hr
  · simp only [ensureRoot, hf]
    split
    · exact mem_updateRec_of_ne hr
        fun he => hne r1 (findA_mem hf) he.symm (findA_props hf).2
    · exact hr

lemma mem_ensureSsh {base ip : String} {snapshot : List DnsRecord}
    {st : ZoneState} {r : DnsRecord} (hr : r ∈ st.live)
    (hne : ∀ r1 ∈ snapshot, r1.rid = r.rid → r1.name ≠ sshName base) :
    r ∈ (ensureSsh base ip snapshot st).live := by
  rcases hf : findA snapshot (sshName base) with _ | r1
  · simp only [ensureSsh, hf]
    exact mem_createRec hr
  · simp only [ensureSsh, hf]
    split
    · exact mem_updateRec_of_ne hr
        fun he => hne r1 (findA_mem hf) he.symm (findA_props hf).2
    · exact hr

lemma mem_processHost {base ip : String} {snapshot : List DnsRecord}
    {acc : ZoneState × List String} {h : String} {r : DnsRecord}
    (hr : r ∈ acc.1.live)
    (hne : ∀ r1 ∈ snapshot, r1.rid = r.rid → r1.name ≠ strLower h) :
    r ∈ (processHost base ip snapshot acc h).1.live := by
  unfold processHost
  dsimp only
  by_cases hssh : strLower h = sshName base
  · rw [if_pos hssh]
    exact hr
  · rw [if_neg hssh]
    rcases hf : findA snapshot (strLower h) with _ | r1
    · simp only [hf]
      exact mem_createRec hr
    · simp only [hf]
      split
      · exact mem_updateRec_of_ne hr
          fun he => hne r1 (findA_mem hf) he.symm (findA_props hf).2
      · exact hr

lemma mem_foldl_processHost {base ip : String} {snapshot : List DnsRecord}
    {hostnames : List String} :
    ∀ (acc : ZoneState × List String) (r : DnsRecord), r ∈ acc.1.live →
      (∀ h ∈ hostnames, ∀ r1 ∈ snapshot, r1.rid = r.rid →
        r1.name ≠ strLower h) →
      r ∈ (hostnames.foldl (processHost base ip snapshot) acc).1.live := by
  induction hostnames with
  | nil =>
    intro acc r hr _
    exact hr
  | cons h hs ih =>
    intro acc r hr hne
    rw [List.foldl_cons]
    refine ih _ r (mem_processHost hr (hne h (by simp))) ?_
    intro h' hh'
    exact hne h' (by simp [hh'])

lemma pruneZone_cons (base : String) (r1 : DnsRecord) (rs : List DnsRecord)
    (processed : List String) (st : ZoneState) :
    pruneZone base (r1 :: rs) processed st =
      pruneZone base rs processed
        (if orphanCond base processed r1 then deleteRec st r1.rid else st) := by
  simp only [pruneZone, List.foldl_cons]

lemma mem_pruneZone {base : String} {processed : List String} {r : DnsRecord} :
    ∀ (snap2 : List DnsRecord) (st : ZoneState), r ∈ st.live →
      (∀ r1 ∈ snap2, orphanCond base processed r1 → r1.rid ≠ r.rid) →
      r ∈ (pruneZone base snap2 processed st).live := by
  intro snap2
  induction snap2 with
  | nil =>
    intro st hr _
    exact hr
  | cons r1 rs ih =>
    intro st hr hne
    rw [pruneZone_cons]
    by_cases hc : orphanCond base processed r1
    · rw [if_pos hc]
      exact ih _ (mem_deleteRec_of_ne hr (fun he => hne r1 (by simp) hc he.symm))
        fun r' hr' hc' => hne r' (by simp [hr']) hc'
    · rw [if_neg hc]
      exact ih _ hr fun r' hr' hc' => hne r' (by simp [hr']) hc'

lemma pruneZone_subset {base : String} {processed : List String} :
    ∀ (snap2 : List DnsRecord) (st : ZoneState) (r : DnsRecord),
      r ∈ (pruneZone base snap2 processed st).live → r ∈ st.live := by
  intro snap2
  induction snap2 with
  | nil =>
    intro st r hr
    exact hr
  | cons r1 rs ih =>
    intro st r hr
    rw [pruneZone_cons] at hr
    by_cases hc : orphanCond base processed r1
    · rw [if_pos hc] at hr
      exact (deleteRec_spec (ih _ r hr)).1
    · rw [if_neg hc] at hr
      exact ih _ r hr

lemma pruneZone_kills {base : String} {processed : List String} :
    ∀ (snap2 : List DnsRecord) (st : ZoneState) (r0 : DnsRecord),
      r0 ∈ snap2 → orphanCond base processed r0 →
      ¬ ridLive (pruneZone base snap2 processed st) r0.rid := by
  intro snap2
  induction snap2 with
  | nil =>
    intro st r0 hmem
    cases hmem
  | cons r1 rs ih =>
    intro st r0 hmem hc
    rw [pruneZone_cons]
    rcases List.mem_cons.mp hmem with rfl | hmem'
    · rw [if_pos hc]
      rintro ⟨r, hr, hk⟩
      exact (deleteRec_spec (pruneZone_subset rs _ r hr)).2 hk
    · exact ih _ r0 hmem' hc

/-! ### ridLive and nextId through the phases -/

lemma ridLive_ensureRoot {base ip : String} {snapshot : List DnsRecord}
    {st : ZoneState} {k : Nat} (h : ridLive st k) :
    ridLive (ensureRoot base ip snapshot st) k := by
  rcases hf : findA snapshot base with _ | r1
  · simp only [ensureRoot, hf]
    exact ridLive_createRec h
  · simp only [ensureRoot, hf]
    split
    · exact ridLive_updateRec h
    · exact h

lemma ridLive_ensureSsh {base ip : String} {snapshot : List DnsRecord}
    {st : ZoneState} {k : Nat} (h : ridLive st k) :
    ridLive (ensureSsh base ip snapshot st) k := by
  rcases hf : findA snapshot (sshName base) with _ | r1
  · simp only [ensureSsh, hf]
    exact ridLive_createRec h
  · simp only [ensureSsh, hf]
    split
    · exact ridLive_updateRec h
    · exact h

lemma ridLive_processHost {base ip : String} {snapshot : List DnsRecord}
    {acc : ZoneState × List String} {h' : String} {k : Nat}
    (h : ridLive acc.1 k) :
    ridLive (processHost base ip snapshot acc h').1 k := by
  unfold processHost
  dsimp only
  by_cases hssh : strLower h' = sshName base
  · rw [if_pos hssh]
    exact h
  · rw [if_neg hssh]
    rcases hf : findA snapshot (strLower h') with _ | r1
    · simp only [hf]
      exact ridLive_createRec h
    · simp only [hf]
      split
      · exact ridLive_updateRec h
      · exact h

lemma ridLive_foldl_processHost {base ip : String} {snapshot : List DnsRecord}
    {hostnames : List String} {k : Nat} :
    ∀ acc : ZoneState × List String, ridLive acc.1 k →
      ridLive (hostnames.foldl (processHost base ip snapshot) acc).1 k := by
  induction hostnames with
  | nil =>
    intro acc h
    exact h
  | cons h hs ih =>
    intro acc hl
    rw [List.foldl_cons]
    exact ih _ (ridLive_processHost hl)

lemma nextId_le_ensureRoot (base ip : String) (snapshot : List DnsRecord)
    (st : ZoneState) : st.nextId ≤ (ensureRoot base ip snapshot st).nextId := by
  rcases hf : findA snapshot base with _ | r1
  · simp only [ensureRoot, hf, createRec]
    omega
  · simp only [ensureRoot, hf]
    split
    · exact le_refl _
    · exact le_refl _

lemma nextId_le_ensureSsh (base ip : String) (snapshot : List DnsRecord)
    (st : ZoneState) : st.nextId ≤ (ensureSsh base ip snapshot st).nextId := by
  rcases hf : findA snapshot (sshName base) with _ | r1
  · simp only [ensureSsh, hf, createRec]
    omega
  · simp only [ensureSsh, hf]
    split
    · exact le_refl _
    · exact le_refl _

lemma nextId_le_processHost (base ip : String) (snapshot : List DnsRecord)
    (acc : ZoneState × List String) (h : String) :
    acc.1.nextId ≤ (processHost base ip snapshot acc h).1.nextId := by
  unfold processHost
  dsimp only
  by_cases hssh : strLower h = sshName base
  · rw [if_pos hssh]
  · rw [if_neg hssh]
    rcases hf : findA snapshot (strLower h) with _ | r1
    · simp only [hf, createRec]
      omega
    · simp only [hf]
      split
      · exact le_refl _
      · exact le_refl _

lemma shouldProxy_base_self (base : String) : shouldProxy base base = true := by
  unfold shouldProxy
  have : strEndsWith base ("-d." ++ base) = false := by
    by_contra hne
    have htrue : strEndsWith base ("-d." ++ base) = true := by
      revert hne
      cases strEndsWith base ("-d." ++ base) <;> simp
    have := strEndsWith_length htrue
    rw [String.length_append] at this
    have h3 : ("-d." : String).length = 3 := rfl
    omega
  rw [this]
  rfl

/-! ### Field invariant

Every record the pass updates is looked up in the snapshot by name and
rewritten to the current IP with a proxy flag that is a function of that
name alone.  FieldInv captures this: for every snapshot record the live zone
holds a record with the same id that is either still untouched or carries
exactly those rewritten fields. -/

/-- The proxy flag any update of this pass writes for a record of the given
name. -/
def expectedProxy (base n : String) : Bool :=
  if n = sshName base then false
  else if n = base then true
  else shouldProxy base n

/-- Away from the helper name the expected proxy flag is exactly what the
per-hostname loop writes: for the apex itself both sides are true, since the
apex cannot end with -d.<base>. -/
lemma expectedProxy_of_ne_ssh {base hl : String} (hssh : hl ≠ sshName base) :
    expectedProxy base hl = shouldProxy base hl := by
  unfold expectedProxy
  rw [if_neg hssh]
  by_cases hb : hl = base
  · rw [if_pos hb, hb, shouldProxy_base_self]
  · rw [if_neg hb]

/-- For every snapshot record, the live zone holds a record with its id that
is either the snapshot record itself or its rewritten form. -/
def FieldInv (base ip : String) (snapshot : List DnsRecord)
    (st : ZoneState) : Prop :=
  ∀ r0 ∈ snapshot, ∃ r ∈ st.live, r.rid = r0.rid ∧
    (r = r0 ∨ (r.rtype = "A" ∧ r.name = r0.name ∧ r.content = ip ∧
      r.proxied = expectedProxy base r0.name))

lemma fieldInv_init (base ip : String) (snapshot : List DnsRecord)
    (nid : Nat) : FieldInv base ip snapshot ⟨snapshot, nid⟩ := by
  intro r0 h0
  exact ⟨r0, h0, rfl, Or.inl rfl⟩

lemma fieldInv_updateRec {base ip : String} {snapshot : List DnsRecord}
    {st : ZoneState} (hnd : (snapshot.map DnsRecord.rid).Nodup)
    {rx : DnsRecord} (hx : rx ∈ snapshot)
    (hFI : FieldInv base ip snapshot st) {n : String} {px : Bool}
    (hn : n = rx.name) (hpx : px = expectedProxy base rx.name) :
    FieldInv base ip snapshot (updateRec st rx.rid n ip px) := by
  intro r0 h0
  rcases hFI r0 h0 with ⟨r, hr, hk, hor⟩
  by_cases he : r.rid = rx.rid
  · have h00 : r0 = rx := rid_inj hnd h0 hx (by omega)
    refine ⟨⟨rx.rid, "A", n, ip, px⟩, mem_updateRec_target hr he, ?_, ?_⟩
    · show rx.rid = r0.rid
      omega
    · right
      refine ⟨rfl, ?_, rfl, ?_⟩
      · show n = r0.name
        rw [hn, h00]
      · show px = expectedProxy base r0.name
        rw [hpx, h00]
  · exact ⟨r, mem_updateRec_of_ne hr he, hk, hor⟩

lemma fieldInv_createRec {base ip : String} {snapshot : List DnsRecord}
    {st : ZoneState} (hFI : FieldInv base ip snapshot st) (n : String)
    (p : Bool) : FieldInv base ip snapshot (createRec st n ip p) := by
  intro r0 h0
  rcases hFI r0 h0 with ⟨r, hr, hk, hor⟩
  exact ⟨r, mem_createRec hr, hk, hor⟩

lemma fieldInv_ensureRoot {base ip : String} {snapshot : List DnsRecord}
    {st : ZoneState} (hnd : (snapshot.map DnsRecord.rid).Nodup)
    (hFI : FieldInv base ip snapshot st) :
    FieldInv base ip snapshot (ensureRoot base ip snapshot st) := by
  rcases hf : findA snapshot base with _ | rx
  · simp only [ensureRoot, hf]
    exact fieldInv_createRec hFI _ _
  · simp only [ensureRoot, hf]
    split
    · refine fieldInv_updateRec hnd (findA_mem hf) hFI
        (findA_props hf).2.symm ?_
      rw [(findA_props hf).2]
      unfold expectedProxy
      rw [if_neg (Ne.symm (sshName_ne_base base)), if_pos rfl]
    · exact hFI

lemma fieldInv_ensureSsh {base ip : String} {snapshot : List DnsRecord}
    {st : ZoneState} (hnd : (snapshot.map DnsRecord.rid).Nodup)
    (hFI : FieldInv base ip snapshot st) :
    FieldInv base ip snapshot (ensureSsh base ip snapshot st) := by
  rcases hf : findA snapshot (sshName base) with _ | rx
  · simp only [ensureSsh, hf]
    exact fieldInv_createRec hFI _ _
  · simp only [ensureSsh, hf]
    split
    · refine fieldInv_updateRec hnd (findA_mem hf) hFI
        (findA_props hf).2.symm ?_
      rw [(findA_props hf).2]
      unfold expectedProxy
      rw [if_pos rfl]
    · exact hFI

lemma fieldInv_processHost {base ip : String} {snapshot : List DnsRecord}
    {acc : ZoneState × List String} {h : String}
    (hnd : (snapshot.map DnsRecord.rid).Nodup)
    (hFI : FieldInv base ip snapshot acc.1) :
    FieldInv base ip snapshot (processHost base ip snapshot acc h).1 := by
  unfold processHost
  dsimp only
  by_cases hssh : strLower h = sshName base
  · rw [if_pos hssh]
    exact hFI
  · rw [if_neg hssh]
    rcases hf : findA snapshot (strLower h) with _ | rx
    · simp only [hf]
      exact fieldInv_createRec hFI _ _
    · simp only [hf]
      split
      · refine fieldInv_updateRec hnd (findA_mem hf) hFI
          (findA_props hf).2.symm ?_
        rw [(findA_props hf).2, expectedProxy_of_ne_ssh hssh]
      · exact hFI

lemma fieldInv_foldl {base ip : String} {snapshot : List DnsRecord}
    {hostnames : List String}
    (hnd : (snapshot.map DnsRecord.rid).Nodup) :
    ∀ acc : ZoneState × List String, FieldInv base ip snapshot acc.1 →
      FieldInv base ip snapshot
        (hostnames.foldl (processHost base ip snapshot) acc).1 := by
  induction hostnames with
  | nil =>
    intro acc hFI
    exact hFI
  | cons h hs ih =>
    intro acc hFI
    rw [List.foldl_cons]
    exact ih _ (fieldInv_processHost hnd hFI)

/-! ### HasRec: a desired record, tracked through the pass -/

/-- The live zone holds the A-record (n, ip, p) under an id that is either
the id of a snapshot record of the same name or a fresh id (at least nid). -/
def HasRec (snapshot : List DnsRecord) (nid : Nat) (st : ZoneState)
    (n ip : String) (p : Bool) : Prop :=
  ∃ k, ((∃ r0 ∈ snapshot, r0.name = n ∧ r0.rid = k) ∨ nid ≤ k) ∧
    (⟨k, "A", n, ip, p⟩ : DnsRecord) ∈ st.live

lemma hasRec_to_exists {snapshot : List DnsRecord} {nid : Nat}
    {st : ZoneState} {n ip : String} {p : Bool}
    (h : HasRec snapshot nid st n ip p) :
    ∃ r ∈ st.live, r.rtype = "A" ∧ r.name = n ∧ r.content = ip ∧
      r.proxied = p := by
  rcases h with ⟨k, _, hmem⟩
  exact ⟨⟨k, "A", n, ip, p⟩, hmem, rfl, rfl, rfl, rfl⟩

lemma hasRec_processHost {base ip : String} {snapshot : List DnsRecord}
    {nid : Nat} {acc : ZoneState × List String} {n : String} {p : Bool}
    (hnd : (snapshot.map DnsRecord.rid).Nodup)
    (hlt : ∀ r ∈ snapshot, r.rid < nid)
    (hcond : n = sshName base ∨ p = shouldProxy base n) (h' : String)
    (hH : HasRec snapshot nid acc.1 n ip p) :
    HasRec snapshot nid (processHost base ip snapshot acc h').1 n ip p := by
  rcases hH with ⟨k, htag, hmem⟩
  unfold processHost
  dsimp only
  by_cases hssh : strLower h' = sshName base
  · rw [if_pos hssh]
    exact ⟨k, htag, hmem⟩
  · rw [if_neg hssh]
    rcases hf : findA snapshot (strLower h') with _ | rx
    · simp only [hf]
      exact ⟨k, htag, mem_createRec hmem⟩
    · simp only [hf]
      split
      · by_cases he : k = rx.rid
        · rcases htag with ⟨r0, h0, hn0, hk0⟩ | hge
          · have h0x : r0 = rx := rid_inj hnd h0 (findA_mem hf) (by omega)
            have hnx : n = strLower h' := by
              rw [← hn0, h0x, (findA_props hf).2]
            rcases hcond with hc | hc
            · exact absurd (hnx ▸ hc : strLower h' = sshName base) hssh
            · subst hnx
              subst he
              have hp : p = shouldProxy base (strLower h') := hc
              subst hp
              exact ⟨rx.rid,
                Or.inl ⟨r0, h0, by rw [h0x, (findA_props hf).2], hk0⟩,
                mem_updateRec_target hmem rfl⟩
          · exact absurd hge (by have := hlt rx (findA_mem hf); omega)
        · exact ⟨k, htag, mem_updateRec_of_ne hmem (by simpa using he)⟩
      · exact ⟨k, htag, hmem⟩

lemma hasRec_foldl {base ip : String} {snapshot : List DnsRecord} {nid : Nat}
    {n : String} {p : Bool}
    (hnd : (snapshot.map DnsRecord.rid).Nodup)
    (hlt : ∀ r ∈ snapshot, r.rid < nid)
    (hcond : n = sshName base ∨ p = shouldProxy base n)
    (hostnames : List String) :
    ∀ acc : ZoneState × List String, HasRec snapshot nid acc.1 n ip p →
      HasRec snapshot nid
        (hostnames.foldl (processHost base ip snapshot) acc).1 n ip p := by
  induction hostnames with
  | nil =>
    intro acc hH
    exact hH
  | cons h hs ih =>
    intro acc hH
    rw [List.foldl_cons]
    exact ih _ (hasRec_processHost hnd hlt hcond h hH)

lemma hasRec_ensureSsh {base ip : String} {snapshot : List DnsRecord}
    {nid : Nat} {st : ZoneState} {n : String} {p : Bool}
    (hnd : (snapshot.map DnsRecord.rid).Nodup)
    (hlt : ∀ r ∈ snapshot, r.rid < nid) (hne : n ≠ sshName base)
    (hH : HasRec snapshot nid st n ip p) :
    HasRec snapshot nid (ensureSsh base ip snapshot st) n ip p := by
  rcases hH with ⟨k, htag, hmem⟩
  rcases hf : findA snapshot (sshName base) with _ | rx
  · simp only [ensureSsh, hf]
    exact ⟨k, htag, mem_createRec hmem⟩
  · simp only [ensureSsh, hf]
    split
    · by_cases he : k = rx.rid
      · rcases htag with ⟨r0, h0, hn0, hk0⟩ | hge
        · have h0x : r0 = rx := rid_inj hnd h0 (findA_mem hf) (by omega)
          exact absurd (by rw [← hn0, h0x, (findA_props hf).2]) hne
        · exact absurd hge (by have := hlt rx (findA_mem hf); omega)
      · exact ⟨k, htag, mem_updateRec_of_ne hmem (by simpa using he)⟩
    · exact ⟨k, htag, hmem⟩

lemma hasRec_pruneZone {base ip : String} {snapshot : List DnsRecord}
    {nid : Nat} {st : ZoneState} {n : String} {p : Bool}
    {processed : List String}
    (hnd : (snapshot.map DnsRecord.rid).Nodup)
    (hlt : ∀ r ∈ snapshot, r.rid < nid) (hproc : n ∈ processed)
    (hH : HasRec snapshot nid st n ip p) :
    HasRec snapshot nid (pruneZone base snapshot processed st) n ip p := by
  rcases hH with ⟨k, htag, hmem⟩
  refine ⟨k, htag, mem_pruneZone snapshot st hmem ?_⟩
  intro r1 h1 hc he
  rcases htag with ⟨r0, h0, hn0, hk0⟩ | hge
  · have h10 : r1 = r0 := rid_inj hnd h1 h0 (by simpa [hk0] using he)
    exact hc.2.2 (by rw [h10, hn0]; exact hproc)
  · have := hlt r1 h1
    have hk : r1.rid = k := by simpa using he
    omega

/-! ### Establishing the desired records -/

lemma hasRec_establish_ssh {base ip : String} {snapshot : List DnsRecord}
    {nid : Nat} {st : ZoneState}
    (hFI : FieldInv base ip snapshot st) (hnid : nid ≤ st.nextId) :
    HasRec snapshot nid (ensureSsh base ip snapshot st) (sshName base) ip
      false := by
  rcases hf : findA snapshot (sshName base) with _ | rx
  · simp only [ensureSsh, hf]
    exact ⟨st.nextId, Or.inr hnid, createRec_self _ _ _ _⟩
  · simp only [ensureSsh, hf]
    split
    · rcases hFI rx (findA_mem hf) with ⟨r, hr, hk, _⟩
      exact ⟨rx.rid, Or.inl ⟨rx, findA_mem hf, (findA_props hf).2, rfl⟩,
        mem_updateRec_target hr hk⟩
    · next hcase =>
      push_neg at hcase
      rcases hFI rx (findA_mem hf) with ⟨r, hr, hk, hor⟩
      refine ⟨rx.rid, Or.inl ⟨rx, findA_mem hf, (findA_props hf).2, rfl⟩, ?_⟩
      have hrec : r = ⟨rx.rid, "A", sshName base, ip, false⟩ := by
        rcases hor with rfl | ⟨ha, hname, hcont, hprox⟩
        · have hA := (findA_props hf).1
          have hN := (findA_props hf).2
          cases r
          simp_all
        · have hN := (findA_props hf).2
          rw [hN] at hprox
          unfold expectedProxy at hprox
          rw [if_pos rfl] at hprox
          cases r
          simp_all
      rw [hrec] at hr
      exact hr

lemma hasRec_establish_processHost {base ip : String}
    {snapshot : List DnsRecord} {nid : Nat} {acc : ZoneState × List String}
    {h : String}
    (hnd : (snapshot.map DnsRecord.rid).Nodup)
    (hFI : FieldInv base ip snapshot acc.1) (hnid : nid ≤ acc.1.nextId)
    (hssh : strLower h ≠ sshName base) :
    HasRec snapshot nid (processHost base ip snapshot acc h).1 (strLower h)
      ip (shouldProxy base (strLower h)) := by
  unfold processHost
  dsimp only
  rw [if_neg hssh]
  rcases hf : findA snapshot (strLower h) with _ | rx
  · simp only [hf]
    exact ⟨acc.1.nextId, Or.inr hnid, createRec_self _ _ _ _⟩
  · simp only [hf]
    split
    · rcases hFI rx (findA_mem hf) with ⟨r, hr, hk, _⟩
      exact ⟨rx.rid, Or.inl ⟨rx, findA_mem hf, (findA_props hf).2, rfl⟩,
        mem_updateRec_target hr hk⟩
    · next hcase =>
      push_neg at hcase
      rcases hFI rx (findA_mem hf) with ⟨r, hr, hk, hor⟩
      refine ⟨rx.rid, Or.inl ⟨rx, findA_mem hf, (findA_props hf).2, rfl⟩, ?_⟩
      have hrec : r = ⟨rx.rid, "A", strLower h, ip,
          shouldProxy base (strLower h)⟩ := by
        rcases hor with rfl | ⟨ha, hname, hcont, hprox⟩
        · have hA := (findA_props hf).1
          have hN := (findA_props hf).2
          cases r
          simp_all
        · have hN := (findA_props hf).2
          rw [hN, expectedProxy_of_ne_ssh hssh] at hprox
          cases r
          simp_all
      rw [hrec] at hr
      exact hr

lemma fold_hasRec_each {base ip : String} {snapshot : List DnsRecord}
    {nid : Nat} {hostnames : List String}
    (hnd : (snapshot.map DnsRecord.rid).Nodup)
    (hlt : ∀ r ∈ snapshot, r.rid < nid) :
    ∀ acc : ZoneState × List String, FieldInv base ip snapshot acc.1 →
      nid ≤ acc.1.nextId →
      ∀ h ∈ hostnames, strLower h ≠ sshName base →
      HasRec snapshot nid
        (hostnames.foldl (processHost base ip snapshot) acc).1 (strLower h)
        ip (shouldProxy base (strLower h)) := by
  induction hostnames with
  | nil =>
    intro acc _ _ h hh
    cases hh
  | cons h' hs ih =>
    intro acc hFI hnid h hh hsshh
    rw [List.foldl_cons]
    rcases List.mem_cons.mp hh with rfl | hh'
    · exact hasRec_foldl hnd hlt (Or.inr rfl) hs _
        (hasRec_establish_processHost hnd hFI hnid hsshh)
    · exact ih _ (fieldInv_processHost hnd hFI)
        (le_trans hnid (nextId_le_processHost base ip snapshot acc h'))
        h hh' hsshh

/-! ### The processed-records list -/

lemma processHost_skip {base ip : String} {snapshot : List DnsRecord}
    {acc : ZoneState × List String} {h : String}
    (hssh : strLower h = sshName base) :
    processHost base ip snapshot acc h = acc := by
  unfold processHost
  dsimp only
  rw [if_pos hssh]

lemma processHost_snd {base ip : String} {snapshot : List DnsRecord}
    {acc : ZoneState × List String} {h : String}
    (hssh : strLower h ≠ sshName base) :
    (processHost base ip snapshot acc h).2 = acc.2 ++ [strLower h] := by
  unfold processHost
  dsimp only
  rw [if_neg hssh]
  rcases hf : findA snapshot (strLower h) with _ | rx
  · simp only [hf]
  · simp only [hf]
    split
    · rfl
    · rfl

lemma foldl_processHost_snd_mem {base ip : String}
    {snapshot : List DnsRecord} {hostnames : List String} :
    ∀ (acc : ZoneState × List String) (n : String),
      n ∈ (hostnames.foldl (processHost base ip snapshot) acc).2 ↔
        n ∈ acc.2 ∨ (n ∈ hostnames.map strLower ∧ n ≠ sshName base) := by
  induction hostnames with
  | nil =>
    intro acc n
    simp
  | cons h hs ih =>
    intro acc n
    rw [List.foldl_cons]
    by_cases hssh : strLower h = sshName base
    · rw [processHost_skip hssh, ih]
      by_cases hn : n = strLower h
      · simp [hn, hssh]
      · simp only [List.map_cons, List.mem_cons]
        constructor
        · rintro (h1 | ⟨h2, h3⟩)
          · exact Or.inl h1
          · exact Or.inr ⟨Or.inr h2, h3⟩
        · rintro (h1 | ⟨h2 | h2, h3⟩)
          · exact Or.inl h1
          · exact absurd h2 hn
          · exact Or.inr ⟨h2, h3⟩
    · rw [ih, processHost_snd hssh]
      simp only [List.mem_append, List.mem_singleton, List.map_cons,
        List.mem_cons]
      by_cases hn : n = strLower h
      · subst hn
        simp [hssh]
      · constructor
        · rintro ((h1 | h1 | h1) | ⟨h2, h3⟩)
          · exact Or.inl h1
          · exact absurd h1 hn
          · cases h1
          · exact Or.inr ⟨Or.inr h2, h3⟩
        · rintro (h1 | ⟨h2 | h2, h3⟩)
          · exact Or.inl (Or.inl h1)
          · exact absurd h2 hn
          · exact Or.inr ⟨h2, h3⟩

/-- The processed-records list the pruning loop receives holds exactly the
desired names. -/
lemma processed_iff_desired {base ip : String} {snapshot : List DnsRecord}
    {hostnames : List String} (st : ZoneState) (n : String) :
    n ∈ (hostnames.foldl (processHost base ip snapshot)
        (st, [base, sshName base])).2 ↔ desiredName base hostnames n := by
  rw [foldl_processHost_snd_mem]
  unfold desiredName
  by_cases hssh : n = sshName base
  · simp [hssh]
  · simp only [List.mem_cons, List.mem_singleton, List.not_mem_nil, or_false]
    constructor
    · rintro ((h1 | h1) | ⟨h2, _⟩)
      · exact Or.inl h1
      · exact Or.inr (Or.inl h1)
      · exact Or.inr (Or.inr h2)
    · rintro (h1 | h1 | h1)
      · exact Or.inl (Or.inl h1)
      · exact Or.inl (Or.inr h1)
      · exact Or.inr ⟨h1, hssh⟩

/-! ### Establishing the root record -/

lemma hasRec_root_create {base ip : String} {snapshot : List DnsRecord}
    {nid : Nat} (hf : findA snapshot base = none) :
    HasRec snapshot nid (ensureRoot base ip snapshot ⟨snapshot, nid⟩) base ip
      true := by
  simp only [ensureRoot, hf]
  exact ⟨nid, Or.inr (le_refl nid), createRec_self _ _ _ _⟩

lemma hasRec_root_update {base ip : String} {snapshot : List DnsRecord}
    {nid : Nat} {rx : DnsRecord} (hf : findA snapshot base = some rx)
    (hc : rx.content ≠ ip) :
    HasRec snapshot nid (ensureRoot base ip snapshot ⟨snapshot, nid⟩) base ip
      true := by
  simp only [ensureRoot, hf, if_pos hc]
  exact ⟨rx.rid, Or.inl ⟨rx, findA_mem hf, (findA_props hf).2, rfl⟩,
    mem_updateRec_target (findA_mem hf) rfl⟩

lemma ensureRoot_noop {base ip : String} {snapshot : List DnsRecord}
    {st : ZoneState} {rx : DnsRecord} (hf : findA snapshot base = some rx)
    (hc : rx.content = ip) : ensureRoot base ip snapshot st = st := by
  simp only [ensureRoot, hf, hc, if_neg]
  simp

lemma syncDnsRecords_nil (base ip : String) (snapshot : List DnsRecord)
    (nid : Nat) :
    syncDnsRecords base ip [] snapshot nid =
      ensureSsh base ip snapshot
        (ensureRoot base ip snapshot ⟨snapshot, nid⟩) := rfl

lemma syncDnsRecords_ne (base ip : String) (hostnames : List String)
    (snapshot : List DnsRecord) (nid : Nat) (hn : hostnames ≠ []) :
    syncDnsRecords base ip hostnames snapshot nid =
      pruneZone base snapshot
        (hostnames.foldl (processHost base ip snapshot)
          (ensureSsh base ip snapshot
            (ensureRoot base ip snapshot ⟨snapshot, nid⟩),
            [base, sshName base])).2
        (hostnames.foldl (processHost base ip snapshot)
          (ensureSsh base ip snapshot
            (ensureRoot base ip snapshot ⟨snapshot, nid⟩),
            [base, sshName base])).1 := by
  unfold syncDnsRecords
  dsimp only
  rw [if_pos hn]

/-- Snapshot refuting the root clause of claim C7: the root A-record already
holds the current IP but is unproxied. -/
def c7Snapshot : List DnsRecord :=
  [⟨0, "A", "example.com", "1.2.3.4", false⟩]

/-- Counterexample to claim C7 as stated: after a full pass over a zone whose
root record has the current IP but proxied=false, the root record is still
unproxied — the root branch compares only the record content, never the
proxied flag (sync_cloudflare.py line 189), so the root A-record is not
always proxied after the pass. -/
theorem claim_C7_counterexample :
    ¬ (∀ r ∈ (syncDnsRecords "example.com" "1.2.3.4" ["a.example.com"]
        c7Snapshot 1).live,
      r.rtype = "A" → r.name = "example.com" → r.proxied = true) := by
  decide

/-- Claim C7 as amended.  For any pass (all API calls succeeding) over a
snapshot with distinct record ids below the id counter: (1) the pass leaves
an unproxied A-record for the reserved helper name; (2) every extracted
hostname other than the helper — the apex included, when extracted — ends up
with an A-record at the current IP whose proxied flag is false iff the name
ends with -d.<base>; (3) the root record is proxied when the pass creates it
or rewrites its IP; (4) an existing root record that already has the current
IP is left exactly as it was (its proxied flag is not enforced) provided the
apex is not among the extracted hostnames; (5) when the apex is among the
extracted hostnames, the per-hostname loop does enforce a proxied root
record at the current IP. -/
theorem claim_C7 (base ip : String) (hostnames : List String)
    (snapshot : List DnsRecord) (nid : Nat)
    (hnd : (snapshot.map DnsRecord.rid).Nodup)
    (hlt : ∀ r ∈ snapshot, r.rid < nid) :
    (∃ r ∈ (syncDnsRecords base ip hostnames snapshot nid).live,
      r.rtype = "A" ∧ r.name = sshName base ∧ r.content = ip ∧
        r.proxied = false) ∧
    (∀ h ∈ hostnames, strLower h ≠ sshName base →
      ∃ r ∈ (syncDnsRecords base ip hostnames snapshot nid).live,
        r.rtype = "A" ∧ r.name = strLower h ∧ r.content = ip ∧
          r.proxied = shouldProxy base (strLower h)) ∧
    (findA snapshot base = none →
      ∃ r ∈ (syncDnsRecords base ip hostnames snapshot nid).live,
        r.rtype = "A" ∧ r.name = base ∧ r.content = ip ∧
          r.proxied = true) ∧
    (∀ rx, findA snapshot base = some rx → rx.content ≠ ip →
      ∃ r ∈ (syncDnsRecords base ip hostnames snapshot nid).live,
        r.rtype = "A" ∧ r.name = base ∧ r.content = ip ∧
          r.proxied = true) ∧
    (∀ rx, findA snapshot base = some rx → rx.content = ip →
      base ∉ hostnames.map strLower →
      rx ∈ (syncDnsRecords base ip hostnames snapshot nid).live) ∧
    (base ∈ hostnames.map strLower →
      ∃ r ∈ (syncDnsRecords base ip hostnames snapshot nid).live,
        r.rtype = "A" ∧ r.name = base ∧ r.content = ip ∧
          r.proxied = true) := by
  have hFI1 : FieldInv base ip snapshot
      (ensureRoot base ip snapshot ⟨snapshot, nid⟩) :=
    fieldInv_ensureRoot hnd (fieldInv_init base ip snapshot nid)
  have hFI2 : FieldInv base ip snapshot
      (ensureSsh base ip snapshot
        (ensureRoot base ip snapshot ⟨snapshot, nid⟩)) :=
    fieldInv_ensureSsh hnd hFI1
  have hnid1 : nid ≤ (ensureRoot base ip snapshot ⟨snapshot, nid⟩).nextId :=
    nextId_le_ensureRoot base ip snapshot ⟨snapshot, nid⟩
  have hnid2 : nid ≤ (ensureSsh base ip snapshot
      (ensureRoot base ip snapshot ⟨snapshot, nid⟩)).nextId :=
    le_trans hnid1 (nextId_le_ensureSsh base ip snapshot _)
  have hrootchain : ∀ p : Bool,
      HasRec snapshot nid (ensureRoot base ip snapshot ⟨snapshot, nid⟩)
        base ip p →
      p = true →
      ∃ r ∈ (syncDnsRecords base ip hostnames snapshot nid).live,
        r.rtype = "A" ∧ r.name = base ∧ r.content = ip ∧ r.proxied = true := by
    intro p hH hp
    subst hp
    have hH2 := hasRec_ensureSsh hnd hlt (Ne.symm (sshName_ne_base base)) hH
    have hHacc := hasRec_foldl hnd hlt
      (Or.inr (shouldProxy_base_self base).symm) hostnames
      (ensureSsh base ip snapshot
        (ensureRoot base ip snapshot ⟨snapshot, nid⟩), [base, sshName base])
      hH2
    by_cases hn : hostnames = []
    · subst hn
      rw [syncDnsRecords_nil]
      exact hasRec_to_exists hH2
    · rw [syncDnsRecords_ne base ip hostnames snapshot nid hn]
      refine hasRec_to_exists (hasRec_pruneZone hnd hlt ?_ hHacc)
      exact (processed_iff_desired _ base).mpr (Or.inl rfl)
  refine ⟨?_, ?_, ?_, ?_, ?_, ?_⟩
  · -- (1) reserved helper record
    have hH2 : HasRec snapshot nid
        (ensureSsh base ip snapshot
          (ensureRoot base ip snapshot ⟨snapshot, nid⟩))
        (sshName base) ip false := hasRec_establish_ssh hFI1 hnid1
    by_cases hn : hostnames = []
    · subst hn
      rw [syncDnsRecords_nil]
      exact hasRec_to_exists hH2
    · have hHacc := hasRec_foldl hnd hlt (Or.inl rfl) hostnames
        (ensureSsh base ip snapshot
          (ensureRoot base ip snapshot ⟨snapshot, nid⟩), [base, sshName base])
        hH2
      rw [syncDnsRecords_ne base ip hostnames snapshot nid hn]
      refine hasRec_to_exists (hasRec_pruneZone hnd hlt ?_ hHacc)
      exact (processed_iff_desired _ (sshName base)).mpr (Or.inr (Or.inl rfl))
  · -- (2) extracted hostnames
    intro h hh hssh
    have hn : hostnames ≠ [] := by
      intro he
      rw [he] at hh
      cases hh
    have hHacc := fold_hasRec_each hnd hlt
      (ensureSsh base ip snapshot
        (ensureRoot base ip snapshot ⟨snapshot, nid⟩), [base, sshName base])
      hFI2 hnid2 h hh hssh
    rw [syncDnsRecords_ne base ip hostnames snapshot nid hn]
    refine hasRec_to_exists (hasRec_pruneZone hnd hlt ?_ hHacc)
    exact (processed_iff_desired _ (strLower h)).mpr
      (Or.inr (Or.inr (List.mem_map_of_mem strLower hh)))
  · -- (3a) root created proxied
    intro hf
    exact hrootchain true (hasRec_root_create hf) rfl
  · -- (3b) root rewritten proxied on IP change
    intro rx hf hc
    exact hrootchain true (hasRec_root_update hf hc) rfl
  · -- (3c) root with current IP left untouched when the apex is not extracted
    intro rx hf hc habs
    have hbase' : ∀ h' ∈ hostnames, strLower h' ≠ base := by
      intro h' hh' hEq
      exact habs (hEq ▸ List.mem_map_of_mem strLower hh')
    have hx1 : rx ∈ (ensureRoot base ip snapshot ⟨snapshot, nid⟩).live := by
      rw [ensureRoot_noop hf hc]
      exact findA_mem hf
    have hx2 : rx ∈ (ensureSsh base ip snapshot
        (ensureRoot base ip snapshot ⟨snapshot, nid⟩)).live := by
      refine mem_ensureSsh hx1 ?_
      intro r1 h1 he
      have h1x : r1 = rx := rid_inj hnd h1 (findA_mem hf) he
      rw [h1x, (findA_props hf).2]
      exact Ne.symm (sshName_ne_base base)
    by_cases hn : hostnames = []
    · subst hn
      rw [syncDnsRecords_nil]
      exact hx2
    · have hx3 : rx ∈ (hostnames.foldl (processHost base ip snapshot)
          (ensureSsh base ip snapshot
            (ensureRoot base ip snapshot ⟨snapshot, nid⟩),
            [base, sshName base])).1.live := by
        refine mem_foldl_processHost _ rx hx2 ?_
        intro h' hh' r1 h1 he
        have h1x : r1 = rx := rid_inj hnd h1 (findA_mem hf) he
        rw [h1x, (findA_props hf).2]
        exact Ne.symm (hbase' h' hh')
      rw [syncDnsRecords_ne base ip hostnames snapshot nid hn]
      refine mem_pruneZone snapshot _ hx3 ?_
      intro r1 h1 hc1 he
      have h1x : r1 = rx := rid_inj hnd h1 (findA_mem hf) he
      refine hc1.2.2 ?_
      rw [h1x, (findA_props hf).2]
      exact (processed_iff_desired _ base).mpr (Or.inl rfl)
  · -- (3d) apex among the extracted hostnames: the loop re-proxies the root
    intro hmem
    rcases List.mem_map.mp hmem with ⟨h, hh, hlh⟩
    have hssh : strLower h ≠ sshName base := by
      rw [hlh]
      exact Ne.symm (sshName_ne_base base)
    have hn : hostnames ≠ [] := by
      intro he
      rw [he] at hh
      cases hh
    have hHacc := fold_hasRec_each hnd hlt
      (ensureSsh base ip snapshot
        (ensureRoot base ip snapshot ⟨snapshot, nid⟩), [base, sshName base])
      hFI2 hnid2 h hh hssh
    rw [hlh, shouldProxy_base_self] at hHacc
    rw [syncDnsRecords_ne base ip hostnames snapshot nid hn]
    refine hasRec_to_exists (hasRec_pruneZone hnd hlt ?_ hHacc)
    exact (processed_iff_desired _ base).mpr (Or.inl rfl)

/-- Zone snapshot for the C7 witness: an unproxied root record already at the
current IP and a stale a.example.com record. -/
def c7WitnessSnapshot : List DnsRecord :=
  [⟨0, "A", "example.com", "1.2.3.4", false⟩,
   ⟨1, "A", "a.example.com", "9.9.9.9", true⟩]

/-- Witness for the amended claim C7: base example.com at IP 1.2.3.4, an
unproxied root record already holding the current IP, a stale a.example.com
record, and a DNS-only hostname b-d.example.com. -/
theorem claim_C7_witness :
    ((c7WitnessSnapshot.map DnsRecord.rid).Nodup ∧
      (∀ r ∈ c7WitnessSnapshot, r.rid < 2)) ∧
    ((∃ r ∈ (syncDnsRecords "example.com" "1.2.3.4"
        ["a.example.com", "b-d.example.com"] c7WitnessSnapshot 2).live,
      r.rtype = "A" ∧ r.name = sshName "example.com" ∧
        r.content = "1.2.3.4" ∧ r.proxied = false) ∧
    (∀ h ∈ ["a.example.com", "b-d.example.com"],
      strLower h ≠ sshName "example.com" →
      ∃ r ∈ (syncDnsRecords "example.com" "1.2.3.4"
          ["a.example.com", "b-d.example.com"] c7WitnessSnapshot 2).live,
        r.rtype = "A" ∧ r.name = strLower h ∧ r.content = "1.2.3.4" ∧
          r.proxied = shouldProxy "example.com" (strLower h)) ∧
    (findA c7WitnessSnapshot "example.com" = none →
      ∃ r ∈ (syncDnsRecords "example.com" "1.2.3.4"
          ["a.example.com", "b-d.example.com"] c7WitnessSnapshot 2).live,
        r.rtype = "A" ∧ r.name = "example.com" ∧ r.content = "1.2.3.4" ∧
          r.proxied = true) ∧
    (∀ rx, findA c7WitnessSnapshot "example.com" = some rx →
      rx.content ≠ "1.2.3.4" →
      ∃ r ∈ (syncDnsRecords "example.com" "1.2.3.4"
          ["a.example.com", "b-d.example.com"] c7WitnessSnapshot 2).live,
        r.rtype = "A" ∧ r.name = "example.com" ∧ r.content = "1.2.3.4" ∧
          r.proxied = true) ∧
    (∀ rx, findA c7WitnessSnapshot "example.com" = some rx →
      rx.content = "1.2.3.4" →
      "example.com" ∉ (["a.example.com", "b-d.example.com"].map strLower) →
      rx ∈ (syncDnsRecords "example.com" "1.2.3.4"
        ["a.example.com", "b-d.example.com"] c7WitnessSnapshot 2).live) ∧
    ("example.com" ∈ (["a.example.com", "b-d.example.com"].map strLower) →
      ∃ r ∈ (syncDnsRecords "example.com" "1.2.3.4"
          ["a.example.com", "b-d.example.com"] c7WitnessSnapshot 2).live,
        r.rtype = "A" ∧ r.name = "example.com" ∧ r.content = "1.2.3.4" ∧
          r.proxied = true)) :=
  ⟨⟨by decide, by decide⟩,
    claim_C7 "example.com" "1.2.3.4" ["a.example.com", "b-d.example.com"]
      c7WitnessSnapshot 2 (by decide) (by decide)⟩

/-- Claim C8: with an empty extracted hostname list a pass deletes nothing
(every snapshot record id survives), leaves every record not named <base> or
the helper exactly as it was, and still ensures the root and helper records;
with a non-empty list it deletes exactly the snapshot A-records whose name
ends in .<base> and is not desired (root, helper, or an extracted name). -/
theorem claim_C8 (base ip : String) (hostnames : List String)
    (snapshot : List DnsRecord) (nid : Nat)
    (hnd : (snapshot.map DnsRecord.rid).Nodup)
    (hlt : ∀ r ∈ snapshot, r.rid < nid) :
    (hostnames = [] →
      (∀ r0 ∈ snapshot,
        ∃ r ∈ (syncDnsRecords base ip hostnames snapshot nid).live,
          r.rid = r0.rid) ∧
      (∀ r0 ∈ snapshot, r0.name ≠ base → r0.name ≠ sshName base →
        r0 ∈ (syncDnsRecords base ip hostnames snapshot nid).live) ∧
      (∃ r ∈ (syncDnsRecords base ip hostnames snapshot nid).live,
        r.rtype = "A" ∧ r.name = base) ∧
      (∃ r ∈ (syncDnsRecords base ip hostnames snapshot nid).live,
        r.rtype = "A" ∧ r.name = sshName base ∧ r.content = ip ∧
          r.proxied = false)) ∧
    (hostnames ≠ [] →
      ∀ r0 ∈ snapshot,
        ((∃ r ∈ (syncDnsRecords base ip hostnames snapshot nid).live,
            r.rid = r0.rid) ↔
          ¬ (r0.rtype = "A" ∧ strEndsWith r0.name ("." ++ base) = true ∧
            ¬ desiredName base hostnames r0.name))) := by
  have hFI1 : FieldInv base ip snapshot
      (ensureRoot base ip snapshot ⟨snapshot, nid⟩) :=
    fieldInv_ensureRoot hnd (fieldInv_init base ip snapshot nid)
  have hnid1 : nid ≤ (ensureRoot base ip snapshot ⟨snapshot, nid⟩).nextId :=
    nextId_le_ensureRoot base ip snapshot ⟨snapshot, nid⟩
  constructor
  · intro hn
    subst hn
    simp only [syncDnsRecords_nil]
    refine ⟨?_, ?_, ?_, ?_⟩
    · intro r0 h0
      exact ridLive_ensureSsh (ridLive_ensureRoot ⟨r0, h0, rfl⟩)
    · intro r0 h0 hb hs
      refine mem_ensureSsh (mem_ensureRoot h0 ?_) ?_
      · intro r1 h1 he
        rw [rid_inj hnd h1 h0 he]
        exact hb
      · intro r1 h1 he
        -- r1 is in the snapshot; he says its id equals r0's, but r0 may have
        -- been rewritten by ensureRoot.  ensureRoot keeps ids, so compare
        -- against r0 directly.
        rw [rid_inj hnd h1 h0 he]
        exact hs
    · rcases hf : findA snapshot base with _ | rx
      · have h1 : HasRec snapshot nid
            (ensureRoot base ip snapshot ⟨snapshot, nid⟩) base ip true :=
          hasRec_root_create hf
        have h2 := hasRec_ensureSsh hnd hlt (Ne.symm (sshName_ne_base base)) h1
        rcases hasRec_to_exists h2 with ⟨r, hr, ha, hb2, _, _⟩
        exact ⟨r, hr, ha, hb2⟩
      · by_cases hc : rx.content = ip
        · have hx1 : rx ∈ (ensureRoot base ip snapshot ⟨snapshot, nid⟩).live := by
            rw [ensureRoot_noop hf hc]
            exact findA_mem hf
          have hx2 : rx ∈ (ensureSsh base ip snapshot
              (ensureRoot base ip snapshot ⟨snapshot, nid⟩)).live :=
            mem_ensureSsh hx1 (fun r1 h1 he => by
            rw [rid_inj hnd h1 (findA_mem hf) he, (findA_props hf).2]
            exact Ne.symm (sshName_ne_base base))
          exact ⟨rx, hx2, (findA_props hf).1, (findA_props hf).2⟩
        · have h1 : HasRec snapshot nid
              (ensureRoot base ip snapshot ⟨snapshot, nid⟩) base ip true :=
            hasRec_root_update hf hc
          have h2 := hasRec_ensureSsh hnd hlt (Ne.symm (sshName_ne_base base)) h1
          rcases hasRec_to_exists h2 with ⟨r, hr, ha, hb2, _, _⟩
          exact ⟨r, hr, ha, hb2⟩
    · exact hasRec_to_exists (hasRec_establish_ssh hFI1 hnid1)
  · intro hn r0 h0
    rw [syncDnsRecords_ne base ip hostnames snapshot nid hn]
    constructor
    · intro hex hAbs
      have hcond : orphanCond base
          (hostnames.foldl (processHost base ip snapshot)
            (ensureSsh base ip snapshot
              (ensureRoot base ip snapshot ⟨snapshot, nid⟩),
              [base, sshName base])).2 r0 := by
        refine ⟨hAbs.1, hAbs.2.1, ?_⟩
        intro hmem
        exact hAbs.2.2 ((processed_iff_desired _ r0.name).mp hmem)
      exact pruneZone_kills snapshot _ r0 h0 hcond hex
    · intro hnAbs
      have hl0 : ridLive (⟨snapshot, nid⟩ : ZoneState) r0.rid := ⟨r0, h0, rfl⟩
      have hl3 : ridLive (hostnames.foldl (processHost base ip snapshot)
          (ensureSsh base ip snapshot
            (ensureRoot base ip snapshot ⟨snapshot, nid⟩),
            [base, sshName base])).1 r0.rid :=
        ridLive_foldl_processHost _
          (ridLive_ensureSsh (ridLive_ensureRoot hl0))
      rcases hl3 with ⟨r, hr, hk⟩
      refine ⟨r, mem_pruneZone snapshot _ hr ?_, hk⟩
      intro r1 h1 hc1 he
      have h1x : r1 = r0 := rid_inj hnd h1 h0 (by omega)
      have hc0 := h1x ▸ hc1
      exact hnAbs ⟨hc0.1, hc0.2.1,
        fun hd => hc0.2.2 ((processed_iff_desired _ r0.name).mpr hd)⟩

/-- Zone snapshot for the C8 witness: a stale desired record a.example.com
and an orphan c.example.com. -/
def c8WitnessSnapshot : List DnsRecord :=
  [⟨0, "A", "a.example.com", "9.9.9.9", true⟩,
   ⟨1, "A", "c.example.com", "1.2.3.4", true⟩]

/-- Witness for claim C8 on a concrete zone. -/
theorem claim_C8_witness :
    ((c8WitnessSnapshot.map DnsRecord.rid).Nodup ∧
      (∀ r ∈ c8WitnessSnapshot, r.rid < 2)) ∧
    ((["a.example.com"] = ([] : List String) →
      (∀ r0 ∈ c8WitnessSnapshot,
        ∃ r ∈ (syncDnsRecords "example.com" "1.2.3.4" ["a.example.com"]
            c8WitnessSnapshot 2).live, r.rid = r0.rid) ∧
      (∀ r0 ∈ c8WitnessSnapshot, r0.name ≠ "example.com" →
        r0.name ≠ sshName "example.com" →
        r0 ∈ (syncDnsRecords "example.com" "1.2.3.4" ["a.example.com"]
          c8WitnessSnapshot 2).live) ∧
      (∃ r ∈ (syncDnsRecords "example.com" "1.2.3.4" ["a.example.com"]
          c8WitnessSnapshot 2).live,
        r.rtype = "A" ∧ r.name = "example.com") ∧
      (∃ r ∈ (syncDnsRecords "example.com" "1.2.3.4" ["a.example.com"]
          c8WitnessSnapshot 2).live,
        r.rtype = "A" ∧ r.name = sshName "example.com" ∧
          r.content = "1.2.3.4" ∧ r.proxied = false)) ∧
    (["a.example.com"] ≠ ([] : List String) →
      ∀ r0 ∈ c8WitnessSnapshot,
        ((∃ r ∈ (syncDnsRecords "example.com" "1.2.3.4" ["a.example.com"]
            c8WitnessSnapshot 2).live, r.rid = r0.rid) ↔
          ¬ (r0.rtype = "A" ∧
            strEndsWith r0.name ("." ++ "example.com") = true ∧
            ¬ desiredName "example.com" ["a.example.com"] r0.name)))) :=
  ⟨⟨by decide, by decide⟩,
    claim_C8 "example.com" "1.2.3.4" ["a.example.com"] c8WitnessSnapshot 2
      (by decide) (by decide)⟩

/-! ## Script plumbing: exit codes, fingerprint, boot checks
(sync_cloudflare.py main, lightweight_check.py, redis-ratelimiter/main.py
module init) -/

/-- Environment of one sync_cloudflare.py run: whether the Traefik config
file exists, whether CLOUDFLARE_API_TOKEN and DOMAIN_BASE are set, whether
extract_hostnames raises, and the success flag sync_dns_records would return
(False also when it catches an internal exception; any per-record API
failure clears it, lines 194-279). -/
structure SyncMainEnv where
  configExists : Bool
  tokenSet : Bool
  baseSet : Bool
  extractRaises : Bool
  passSuccess : Bool
deriving DecidableEq, Repr

/-- Exit status of sync_cloudflare.py main() (lines 287-324): exit 1 when the
config file is missing, exit 0 silently when the token or the base domain is
unset, exit 1 when extraction raises — and exit 0 at the end regardless of
the success flag, which only gates the health-file write. -/
def syncMainExit (e : SyncMainEnv) : Nat :=
  if ¬ e.configExists then 1
  else if ¬ e.tokenSet then 0
  else if ¬ e.baseSet then 0
  else if e.extractRaises then 1
  else 0

/-- Whether the run reached sync_dns_records at all. -/
def syncMainRanPass (e : SyncMainEnv) : Bool :=
  e.configExists && e.tokenSet && e.baseSet && !e.extractRaises

/-- Whether main() wrote the health-check file (line 315: only when success
was True). -/
def syncMainHealthWritten (e : SyncMainEnv) : Bool :=
  syncMainRanPass e && e.passSuccess

/-- run_full_sync of lightweight_check.py (lines 87-101): it runs
sync_cloudflare.py, and on exit status 0 it reports success and advances the
stored Traefik-config checksum (update_traefik_checksum); the pair is
(reported success, checksum advanced). -/
def runFullSync (syncExit : Nat) : Bool × Bool :=
  if syncExit = 0 then (true, true) else (false, false)

/-- The fingerprint outcome of a full tick: the checksum file is rewritten
iff sync_cloudflare.py exited 0. -/
def fingerprintAdvanced (e : SyncMainEnv) : Bool :=
  (runFullSync (syncMainExit e)).2

/-- Run refuting claim C9: every input present, a pass runs, and one
per-record API call fails (passSuccess = false). -/
def c9Env : SyncMainEnv :=
  { configExists := true, tokenSet := true, baseSet := true,
    extractRaises := false, passSuccess := false }

/-- Claim C9 fails on the code: main() of sync_cloudflare.py discards the
success flag when choosing its exit status (it runs sys.exit(0) whenever no
exception escaped, line 324), so a pass in which a record create, update or
delete failed still exits 0, run_full_sync treats that as success, and
update_traefik_checksum advances the fingerprint.  The health file — the
only consumer of the flag — is correctly skipped. -/
theorem claim_C9 :
    syncMainRanPass c9Env = true ∧ c9Env.passSuccess = false ∧
      syncMainHealthWritten c9Env = false ∧ syncMainExit c9Env = 0 ∧
      fingerprintAdvanced c9Env = true := by
  decide

/-- Python truthiness of an os.getenv result: None and the empty string are
falsy. -/
def pyTruthy (v : Option String) : Bool :=
  match v with
  | none => false
  | some s => decide (s ≠ "")

/-- Module init of redis-ratelimiter/main.py (lines 17-39): sys.exit(1) when
REDIS_HOST or REDIS_PASSWORD is unset or empty, and sys.exit(1) when a
provided REDIS_PORT or REDIS_DB does not parse as an integer; none means the
process proceeds to serve. -/
def ratelimiterBootExit (redisHost redisPassword redisPort redisDb :
    Option String) (portParseOk dbParseOk : Bool) : Option Nat :=
  if ¬ pyTruthy redisHost then some 1
  else if ¬ pyTruthy redisPassword then some 1
  else if redisPort.isSome ∧ ¬ portParseOk then some 1
  else if redisDb.isSome ∧ ¬ dbParseOk then some 1
  else none

/-- Run refuting the reconciler half of claim C10: the config file exists
but the provider token is unset. -/
def c10Env : SyncMainEnv :=
  { configExists := true, tokenSet := false, baseSet := true,
    extractRaises := false, passSuccess := true }

/-- Counterexample to claim C10 as stated: with the DNS provider token
missing, sync_cloudflare.py exits before doing any work but with status 0
(sys.exit(0), comment "Exit silently", lines 295-299), not the non-zero
status the claim requires. -/
theorem claim_C10_counterexample :
    syncMainRanPass c10Env = false ∧ syncMainExit c10Env = 0 := by
  decide

/-- Claim C10 as amended: the rate limiter exits with status 1 before serving
when its store host or password is missing, as claimed; the reconciler also
stops before performing any work when the provider token or the base domain
is missing, but it exits with status zero (silently), not non-zero. -/
theorem claim_C10 (redisHost redisPassword redisPort redisDb : Option String)
    (portParseOk dbParseOk : Bool) (e : SyncMainEnv)
    (hrl : ¬ pyTruthy redisHost = true ∨ ¬ pyTruthy redisPassword = true)
    (hcf : e.configExists = true)
    (hrc : e.tokenSet = false ∨ e.baseSet = false) :
    ratelimiterBootExit redisHost redisPassword redisPort redisDb portParseOk
        dbParseOk = some 1 ∧
      syncMainExit e = 0 ∧ syncMainRanPass e = false := by
  refine ⟨?_, ?_, ?_⟩
  · rcases hrl with h | h
    · unfold ratelimiterBootExit
      rw [if_pos h]
    · by_cases hh : pyTruthy redisHost = true
      · unfold ratelimiterBootExit
        rw [if_neg (by simp [hh]), if_pos h]
      · unfold ratelimiterBootExit
        rw [if_pos hh]
  · rcases hrc with h | h
    · by_cases ht : e.tokenSet = true
      · rw [h] at ht
        cases ht
      · simp [syncMainExit, hcf, h]
    · by_cases ht : e.tokenSet = true
      · simp [syncMainExit, hcf, ht, h]
      · simp [syncMainExit, hcf, ht]
  · rcases hrc with h | h
    · simp [syncMainRanPass, h]
    · simp [syncMainRanPass, h]

/-- Witness for the amended claim C10: REDIS_HOST unset on the rate limiter;
token unset on the reconciler. -/
theorem claim_C10_witness :
    ((¬ pyTruthy none = true ∨ ¬ pyTruthy (some "secret") = true) ∧
      c10Env.configExists = true ∧
      (c10Env.tokenSet = false ∨ c10Env.baseSet = false)) ∧
    (ratelimiterBootExit none (some "secret") none none true true = some 1 ∧
      syncMainExit c10Env = 0 ∧ syncMainRanPass c10Env = false) :=
  ⟨⟨Or.inl (by decide), by decide, Or.inl (by decide)⟩,
    claim_C10 none (some "secret") none none true true c10Env
      (Or.inl (by decide)) (by decide) (Or.inl (by decide))⟩

end CaimelStack
